import Mathlib

/-!
# KWin DRM backend: CRTC buffer handling

A shallow embedding of `plugins/platforms/drm/drm_object_crtc.cpp`
(`DrmCrtc::init`, `DrmCrtc::initProps`, `DrmCrtc::flipBuffer`, `DrmCrtc::blank`)
and theorems about the buffer life cycle of a CRTC, followed by embeddings of
the format tranches of `egl_dmabuf.cpp`, the zoom state of `lookingglass.cpp`,
the device list of `colormanager.cpp` and the regions of `surfaceitem_x11.cpp`.

Heap objects are identified by their address (a natural number).  Every member
function becomes a pure function from the object state and the answers of its
collaborators (backend, output, kernel) to an `Outcome`: the return value, the
state afterwards and the list of observable actions in program order.
-/

namespace KWin

/-- Identity (address) of a heap-allocated `DrmBuffer` / `DrmDumbBuffer`. -/
abbrev DrmBuffer := Nat

/-- Observable actions of the CRTC code, recorded in program order. -/
inductive Effect where
  /-- `m_output->m_backend->createBuffer(size)` returned the object `b`. -/
  | createBuffer (b : DrmBuffer)
  /-- `b->map()` was called. -/
  | map (b : DrmBuffer)
  /-- `b->image()->fill(Qt::black)` was called. -/
  | fill (b : DrmBuffer)
  /-- `delete b` ran on a non-null pointer. -/
  | delete (b : DrmBuffer)
  /-- `m_output->setModeLegacy(b)` was called. -/
  | setModeLegacy (b : DrmBuffer)
  /-- `drmModeObjectGetProperties(m_fd, m_id, DRM_MODE_OBJECT_CRTC)` was called. -/
  | drmModeObjectGetProperties
  /-- `drmModeFreeObjectProperties(properties)` was called. -/
  | drmModeFreeObjectProperties
  deriving DecidableEq, Repr

/-- True on the action of allocating a buffer. -/
def Effect.isCreate : Effect → Bool
  | Effect.createBuffer _ => true
  | _ => false

/-- A cached property of a DRM object: kernel id, name and value. -/
structure Property where
  prop_id : Nat
  name : String
  value : Nat
  deriving DecidableEq, Repr

/-- The members of a `DrmCrtc` that the code under study reads or writes.
A null pointer is `none`. -/
structure DrmCrtc where
  m_id : Nat
  m_resIndex : Nat
  m_propsNames : List String
  m_props : List (Option Property)
  m_currentBuffer : Option DrmBuffer
  m_nextBuffer : Option DrmBuffer
  m_blackBuffer : Option DrmBuffer
  deriving DecidableEq, Repr

/-- The answers of the collaborators during one call: the backend
(`deleteBufferAfterPageFlip`, `createBuffer`), the new dumb buffer (`map`), the
output (`setModeLegacy`) and the kernel (property queries).

`createBuffer` is the object the backend allocates when asked; `map` tells
whether mapping that object succeeds (a dumb buffer whose allocation was
refused by the kernel cannot be mapped, so a failed allocation shows up
here as well). -/
structure Env where
  deleteBufferAfterPageFlip : Bool
  createBuffer : DrmBuffer
  map : Bool
  setModeLegacy : DrmBuffer → Bool
  drmModeObjectGetProperties : Option (List (Nat × Nat))
  drmModeGetProperty : Nat → Option String

/-- Result of running a member function. -/
structure Outcome (α : Type) where
  ret : α
  crtc : DrmCrtc
  effects : List Effect

/-- Modelled from the spec: the number of property slots of a CRTC,
`int(PropertyIndex::Count)`.  The enumeration lives in `drm_object_crtc.h`,
which is not among the sources; the CRTC recognises the two names
`MODE_ID` and `ACTIVE`. -/
def PropertyIndex.Count : Nat := 2

/-- Store `p` in slot `n` of the property vector, growing it when needed. -/
def setSlot (props : List (Option Property)) (n : Nat) (p : Property) :
    List (Option Property) :=
  (props ++ List.replicate (n + 1 - props.length) none).set n (some p)

/-- Modelled from the spec: `DrmObject::initProp(n, properties)` is defined in
`drm_object.cpp`, which is not among the sources.  Following the spec
("queries the kernel for every property currently attached to the hardware
object, matches each returned id against the caller-supplied recognized-name
list, and stores the matches", properties not recognised are ignored): every
property of the reply whose name is the `n`-th recognised name is stored in
slot `n`.  It touches the property cache only. -/
def initProp (env : Env) (n : Nat) (properties : List (Nat × Nat)) (c : DrmCrtc) : DrmCrtc :=
  properties.foldl
    (fun acc pv =>
      match env.drmModeGetProperty pv.1 with
      | none => acc
      | some nm =>
        if acc.m_propsNames.get? n = some nm then
          { acc with m_props := setSlot acc.m_props n ⟨pv.1, nm, pv.2⟩ }
        else acc)
    c

/-- The function `DrmCrtc::initProps`. -/
def initProps (env : Env) (c : DrmCrtc) : Outcome Bool :=
  let c1 := { c with m_propsNames := ["MODE_ID", "ACTIVE"] }
  match env.drmModeObjectGetProperties with
  | none => ⟨false, c1, [Effect.drmModeObjectGetProperties]⟩
  | some properties =>
    let c2 := (List.range PropertyIndex.Count).foldl (fun acc j => initProp env j properties acc) c1
    ⟨true, c2, [Effect.drmModeObjectGetProperties, Effect.drmModeFreeObjectProperties]⟩

/-- The function `DrmCrtc::init`. -/
def init (env : Env) (c : DrmCrtc) : Outcome Bool :=
  let r := initProps env c
  if !r.ret then ⟨false, r.crtc, r.effects⟩ else ⟨true, r.crtc, r.effects⟩

/-- The function `DrmCrtc::flipBuffer`, the flip-completion handler. -/
def flipBuffer (env : Env) (c : DrmCrtc) : Outcome Unit :=
  let freedCurrent : List Effect :=
    match c.m_currentBuffer with
    | some b =>
      if env.deleteBufferAfterPageFlip && decide (c.m_currentBuffer ≠ c.m_nextBuffer) then
        [Effect.delete b]
      else []
    | none => []
  let freedBlack : List Effect :=
    match c.m_blackBuffer with
    | some b => [Effect.delete b]
    | none => []
  ⟨(), { c with m_currentBuffer := c.m_nextBuffer, m_nextBuffer := none, m_blackBuffer := none },
    freedCurrent ++ freedBlack⟩

/-- Lines 94 to 104 of `DrmCrtc::blank`: the mode-set with the blanking buffer
`bb` (the value of `m_blackBuffer` at that point) and the release of the
content buffers.  `pre` are the actions performed before. -/
def blankSetMode (env : Env) (c : DrmCrtc) (bb : DrmBuffer) (pre : List Effect) : Outcome Bool :=
  if env.setModeLegacy bb then
    let freed : List Effect :=
      match c.m_currentBuffer with
      | some cur =>
        if env.deleteBufferAfterPageFlip then
          Effect.delete cur ::
            (match c.m_nextBuffer with
             | some nxt => [Effect.delete nxt]
             | none => [])
        else []
      | none => []
    ⟨true, { c with m_currentBuffer := none, m_nextBuffer := none },
      pre ++ Effect.setModeLegacy bb :: freed⟩
  else
    ⟨false, c, pre ++ [Effect.setModeLegacy bb]⟩

/-- The function `DrmCrtc::blank`. -/
def blank (env : Env) (c : DrmCrtc) : Outcome Bool :=
  match c.m_blackBuffer with
  | none =>
    let blackBuffer := env.createBuffer
    if !env.map then
      ⟨false, c, [Effect.createBuffer blackBuffer, Effect.map blackBuffer,
        Effect.delete blackBuffer]⟩
    else
      blankSetMode env { c with m_blackBuffer := some blackBuffer } blackBuffer
        [Effect.createBuffer blackBuffer, Effect.map blackBuffer, Effect.fill blackBuffer]
  | some bb => blankSetMode env c bb []

/-- Modelled from the spec: making `buffer` the pending buffer of the CRTC
(the setter `DrmCrtc::setNext` of `drm_object_crtc.h`, which is not among
the sources; the spec's flip request adopts the buffer as pending). -/
def setNext (buffer : DrmBuffer) (c : DrmCrtc) : DrmCrtc :=
  { c with m_nextBuffer := some buffer }

/-- The blanking buffer is the CRTC's own allocation: it is neither the
current nor the pending buffer. -/
def blackBufferOwned (c : DrmCrtc) : Prop :=
  ∀ b, c.m_blackBuffer = some b → c.m_currentBuffer ≠ some b ∧ c.m_nextBuffer ≠ some b

/-- A CRTC with the given buffers and an empty property cache. -/
def crtcWith (cur nxt black : Option DrmBuffer) : DrmCrtc :=
  ⟨1, 0, [], [], cur, nxt, black⟩

/-- Collaborators for the examples: deletion policy `pol`, the backend
allocates buffer `nb`, mapping answers `mp`, every mode-set answers `ms`, and the
property query fails. -/
def envWith (pol : Bool) (nb : DrmBuffer) (mp ms : Bool) : Env :=
  ⟨pol, nb, mp, fun _ => ms, none, fun _ => none⟩

/-- The writes into the property vector that `initProp` performs for slot `n`
when the recognised names are `names`: one per property of the reply whose
name is the `n`-th recognised name, in the order of the reply. -/
def propWrites (env : Env) (names : List String) (n : Nat) (properties : List (Nat × Nat)) :
    List (Nat × Property) :=
  properties.filterMap
    (fun pv =>
      match env.drmModeGetProperty pv.1 with
      | none => none
      | some nm => if names.get? n = some nm then some (n, ⟨pv.1, nm, pv.2⟩) else none)

/-- The writes of one successful `initProps` run. -/
def initPropsWrites (env : Env) (properties : List (Nat × Nat)) : List (Nat × Property) :=
  propWrites env ["MODE_ID", "ACTIVE"] 0 properties ++
    propWrites env ["MODE_ID", "ACTIVE"] 1 properties

/-- Perform a sequence of writes on the property vector. -/
def applyWrites (ws : List (Nat × Property)) (props : List (Option Property)) :
    List (Option Property) :=
  ws.foldl (fun acc w => setSlot acc w.1 w.2) props

/-- One event in the life of a CRTC: a `blank()` call, the assignment of a
pending buffer, or a flip completion. -/
inductive CrtcOp where
  | blank (env : Env)
  | setNext (buffer : DrmBuffer)
  | flipBuffer (env : Env)

/-- The CRTC state after one event. -/
def stepOp (c : DrmCrtc) : CrtcOp → DrmCrtc
  | CrtcOp.blank env => (blank env c).crtc
  | CrtcOp.setNext buffer => setNext buffer c
  | CrtcOp.flipBuffer env => (flipBuffer env c).crtc

/-- The CRTC state after a sequence of events, first event first. -/
def runOps (ops : List CrtcOp) (c : DrmCrtc) : DrmCrtc :=
  ops.foldl stepOp c

/-! ## DRM formats (`egl_dmabuf.cpp`)

The format codes are the four-character codes of `drm_fourcc.h` (libdrm):
the code of the characters `a b c d` is `a + b * 2^8 + c * 2^16 + d * 2^24`. -/

/-- Four-character code `XRA8`. -/
def DRM_FORMAT_XRGB8888_A8 : Nat := 0x38415258

/-- Four-character code `XBA8`. -/
def DRM_FORMAT_XBGR8888_A8 : Nat := 0x38414258

/-- Four-character code `RXA8`. -/
def DRM_FORMAT_RGBX8888_A8 : Nat := 0x38415852

/-- Four-character code `BXA8`. -/
def DRM_FORMAT_BGRX8888_A8 : Nat := 0x38415842

/-- Four-character code `R8A8`. -/
def DRM_FORMAT_RGB888_A8 : Nat := 0x38413852

/-- Four-character code `B8A8`. -/
def DRM_FORMAT_BGR888_A8 : Nat := 0x38413842

/-- Four-character code `R5A8`. -/
def DRM_FORMAT_RGB565_A8 : Nat := 0x38413552

/-- Four-character code `B5A8`. -/
def DRM_FORMAT_BGR565_A8 : Nat := 0x38413542

/-- Four-character code `NV12`. -/
def DRM_FORMAT_NV12 : Nat := 0x3231564e

/-- Four-character code `NV21`. -/
def DRM_FORMAT_NV21 : Nat := 0x3132564e

/-- Four-character code `NV16`. -/
def DRM_FORMAT_NV16 : Nat := 0x3631564e

/-- Four-character code `NV61`. -/
def DRM_FORMAT_NV61 : Nat := 0x3136564e

/-- Four-character code `NV24`. -/
def DRM_FORMAT_NV24 : Nat := 0x3432564e

/-- Four-character code `NV42`. -/
def DRM_FORMAT_NV42 : Nat := 0x3234564e

/-- Four-character code `YUV9`. -/
def DRM_FORMAT_YUV410 : Nat := 0x39565559

/-- Four-character code `YVU9`. -/
def DRM_FORMAT_YVU410 : Nat := 0x39555659

/-- Four-character code `YU11`. -/
def DRM_FORMAT_YUV411 : Nat := 0x31315559

/-- Four-character code `YV11`. -/
def DRM_FORMAT_YVU411 : Nat := 0x31315659

/-- Four-character code `YU12`. -/
def DRM_FORMAT_YUV420 : Nat := 0x32315559

/-- Four-character code `YV12`. -/
def DRM_FORMAT_YVU420 : Nat := 0x32315659

/-- Four-character code `YU16`. -/
def DRM_FORMAT_YUV422 : Nat := 0x36315559

/-- Four-character code `YV16`. -/
def DRM_FORMAT_YVU422 : Nat := 0x36315659

/-- Four-character code `YU24`. -/
def DRM_FORMAT_YUV444 : Nat := 0x34325559

/-- Four-character code `YV24`. -/
def DRM_FORMAT_YVU444 : Nat := 0x34325659

/-- Four-character code `XR24`. -/
def DRM_FORMAT_XRGB8888 : Nat := 0x34325258

/-- Four-character code `XB24`. -/
def DRM_FORMAT_XBGR8888 : Nat := 0x34324258

/-- Four-character code `RX24`. -/
def DRM_FORMAT_RGBX8888 : Nat := 0x34325852

/-- Four-character code `BX24`. -/
def DRM_FORMAT_BGRX8888 : Nat := 0x34325842

/-- Four-character code `AR24`. -/
def DRM_FORMAT_ARGB8888 : Nat := 0x34325241

/-- Four-character code `AB24`. -/
def DRM_FORMAT_ABGR8888 : Nat := 0x34324241

/-- Four-character code `RA24`. -/
def DRM_FORMAT_RGBA8888 : Nat := 0x34324152

/-- Four-character code `BA24`. -/
def DRM_FORMAT_BGRA8888 : Nat := 0x34324142

/-- Four-character code `RG24`. -/
def DRM_FORMAT_RGB888 : Nat := 0x34324752

/-- Four-character code `BG24`. -/
def DRM_FORMAT_BGR888 : Nat := 0x34324742

/-- Four-character code `XR30`. -/
def DRM_FORMAT_XRGB2101010 : Nat := 0x30335258

/-- Four-character code `XB30`. -/
def DRM_FORMAT_XBGR2101010 : Nat := 0x30334258

/-- Four-character code `RX30`. -/
def DRM_FORMAT_RGBX1010102 : Nat := 0x30335852

/-- Four-character code `BX30`. -/
def DRM_FORMAT_BGRX1010102 : Nat := 0x30335842

/-- Four-character code `AR30`. -/
def DRM_FORMAT_ARGB2101010 : Nat := 0x30335241

/-- Four-character code `AB30`. -/
def DRM_FORMAT_ABGR2101010 : Nat := 0x30334241

/-- Four-character code `RA30`. -/
def DRM_FORMAT_RGBA1010102 : Nat := 0x30334152

/-- Four-character code `BA30`. -/
def DRM_FORMAT_BGRA1010102 : Nat := 0x30334142

/-- The modifier `DRM_FORMAT_MOD_INVALID` of `drm_fourcc.h`. -/
def DRM_FORMAT_MOD_INVALID : Nat := 0x00ffffffffffffff

/-- The table `s_multiPlaneFormats`. -/
def s_multiPlaneFormats : List Nat :=
  [DRM_FORMAT_XRGB8888_A8,
   DRM_FORMAT_XBGR8888_A8,
   DRM_FORMAT_RGBX8888_A8,
   DRM_FORMAT_BGRX8888_A8,
   DRM_FORMAT_RGB888_A8,
   DRM_FORMAT_BGR888_A8,
   DRM_FORMAT_RGB565_A8,
   DRM_FORMAT_BGR565_A8,
   DRM_FORMAT_NV12,
   DRM_FORMAT_NV21,
   DRM_FORMAT_NV16,
   DRM_FORMAT_NV61,
   DRM_FORMAT_NV24,
   DRM_FORMAT_NV42,
   DRM_FORMAT_YUV410,
   DRM_FORMAT_YVU410,
   DRM_FORMAT_YUV411,
   DRM_FORMAT_YVU411,
   DRM_FORMAT_YUV420,
   DRM_FORMAT_YVU420,
   DRM_FORMAT_YUV422,
   DRM_FORMAT_YVU422,
   DRM_FORMAT_YUV444,
   DRM_FORMAT_YVU444]

/-- The loop of `filterFormatsWithMultiplePlanes`.  The iterator `it` is its
offset from `formats.begin()`; one unit of fuel is spent per pass of the `while`
loop.  The result is `none` when the fuel runs out or the iterator is
dereferenced outside the vector. -/
def filterFormatsLoop : Nat → List Nat → Int → Option (List Nat)
  | 0, _, _ => none
  | fuel + 1, formats, it =>
    if it = (formats.length : Int) then some formats
    else if it < 0 then none
    else
      match formats.get? it.toNat with
      | none => none
      | some x =>
        if s_multiPlaneFormats.contains x then
          filterFormatsLoop fuel (formats.eraseIdx it.toNat) (it - 1 + 1)
        else filterFormatsLoop fuel formats (it + 1)

/-- The function `filterFormatsWithMultiplePlanes`: the vector afterwards. -/
def filterFormatsWithMultiplePlanes (fuel : Nat) (formats : List Nat) : Option (List Nat) :=
  filterFormatsLoop fuel formats 0

/-- The function `bpcForFormat`. -/
def bpcForFormat (format : Nat) : Int :=
  if format ∈ [DRM_FORMAT_XRGB8888, DRM_FORMAT_XBGR8888, DRM_FORMAT_RGBX8888, DRM_FORMAT_BGRX8888, DRM_FORMAT_ARGB8888,
      DRM_FORMAT_ABGR8888, DRM_FORMAT_RGBA8888, DRM_FORMAT_BGRA8888, DRM_FORMAT_RGB888, DRM_FORMAT_BGR888] then 8
  else if format ∈ [DRM_FORMAT_XRGB2101010, DRM_FORMAT_XBGR2101010, DRM_FORMAT_RGBX1010102, DRM_FORMAT_BGRX1010102,
      DRM_FORMAT_ARGB2101010, DRM_FORMAT_ABGR2101010, DRM_FORMAT_RGBA1010102, DRM_FORMAT_BGRA1010102] then 10
  else -1

/-- A `QHash<uint32_t, QVector<uint64_t>>`, as its list of (key, value)
entries.  The order of the entries stands for the iteration order of the hash. -/
structure QHash where
  entries : List (Nat × List Nat)
  deriving DecidableEq, Repr

/-- The method `QHash::insert`: the value of an existing key is replaced. -/
def QHash.insert (h : QHash) (key : Nat) (value : List Nat) : QHash :=
  ⟨(key, value) :: h.entries.filter (fun e => e.1 != key)⟩

/-- The value stored under `key`, if any. -/
def QHash.value (h : QHash) (key : Nat) : Option (List Nat) :=
  (h.entries.find? (fun e => e.1 == key)).map (fun e => e.2)

/-- No key occurs twice. -/
def QHash.wf (h : QHash) : Prop :=
  (h.entries.map (fun e => e.1)).Nodup

/-- One tranche of the dmabuf feedback: device, flags (always empty here) and
format table. -/
structure Tranche where
  device : Nat
  flags : List Nat
  formatTable : QHash
  deriving DecidableEq, Repr

/-- The tranche offers the format `format`. -/
def Tranche.has (t : Tranche) (format : Nat) : Bool :=
  (t.formatTable.value format).isSome

/-- The answers of EGL and of the backend during
`EglDmabuf::setSupportedFormatsAndModifiers`. -/
structure EglEnv where
  /-- The call `eglQueryDmaBufFormatsEXT(eglDisplay, 0, nullptr, &count)`: success and count. -/
  formatsCount : Bool × Int
  /-- The second `eglQueryDmaBufFormatsEXT` call: the vector `formats` afterwards,
  `none` when the call fails. -/
  formats : Option (List Nat)
  /-- Whether `eglQueryDmaBufModifiersEXT != nullptr`. -/
  hasModifiersQuery : Bool
  /-- The counting `eglQueryDmaBufModifiersEXT` call for a format: success and count. -/
  modifiersCount : Nat → Bool × Int
  /-- The second `eglQueryDmaBufModifiersEXT` call for a format: the vector
  `modifiers` afterwards, `none` when the call fails. -/
  modifiers : Nat → Option (List Nat)
  prefer10bpc : Bool
  deviceId : Nat

/-- The first loop of `setSupportedFormatsAndModifiers`: the hash
`supportedFormats` built from the filtered formats. -/
def supportedFormatsOf (env : EglEnv) (formats : List Nat) : QHash :=
  formats.foldl
    (fun supportedFormats format =>
      if env.hasModifiersQuery then
        if (env.modifiersCount format).1 && decide ((env.modifiersCount format).2 > 0) then
          match env.modifiers format with
          | some modifiers => supportedFormats.insert format modifiers
          | none => supportedFormats.insert format [DRM_FORMAT_MOD_INVALID]
        else supportedFormats.insert format [DRM_FORMAT_MOD_INVALID]
      else supportedFormats.insert format [DRM_FORMAT_MOD_INVALID])
    ⟨[]⟩

/-- The lambda `filterFormats` of `setSupportedFormatsAndModifiers`. -/
def filterFormats (supportedFormats : QHash) (bpc : Int) : QHash :=
  supportedFormats.entries.foldl
    (fun set e => if bpcForFormat e.1 = bpc then set.insert e.1 e.2 else set)
    ⟨[]⟩

/-- The function `EglDmabuf::setSupportedFormatsAndModifiers`: the member
`m_tranches` afterwards (`none` when the filter loop runs out of fuel). -/
def setSupportedFormatsAndModifiers (fuel : Nat) (env : EglEnv) (m_tranches : List Tranche) :
    Option (List Tranche) :=
  if !env.formatsCount.1 || env.formatsCount.2 == 0 then some m_tranches
  else
    match env.formats with
    | none => some m_tranches
    | some formats =>
      match filterFormatsWithMultiplePlanes fuel formats with
      | none => none
      | some formats =>
        let supportedFormats := supportedFormatsOf env formats
        let t1 :=
          if env.prefer10bpc then
            m_tranches ++ [⟨env.deviceId, [], filterFormats supportedFormats 10⟩]
          else m_tranches
        let t2 := t1 ++ [⟨env.deviceId, [], filterFormats supportedFormats 8⟩]
        some (t2 ++ [⟨env.deviceId, [], filterFormats supportedFormats (-1)⟩])

/-- The tranches that `setSupportedFormatsAndModifiers` appends for the hash
`sf`, in the order of the appends. -/
def appendedTranches (env : EglEnv) (sf : QHash) : List Tranche :=
  (if env.prefer10bpc then [(⟨env.deviceId, [], filterFormats sf 10⟩ : Tranche)] else []) ++
    [⟨env.deviceId, [], filterFormats sf 8⟩, ⟨env.deviceId, [], filterFormats sf (-1)⟩]

/-- An EGL driver for the examples: it reports the formats `fmts`, knows no
modifiers, and the backend prefers 10 bits per channel when `p10` is set. -/
def eglWith (fmts : List Nat) (p10 : Bool) : EglEnv :=
  ⟨(true, fmts.length), some fmts, false, fun _ => (false, 0), fun _ => none, p10, 3⟩

/-! ## The looking glass effect (`lookingglass.cpp`)

Only the slots `toggle`, `zoomIn` and `zoomOut` are embedded.  The zoom factors
they produce are multiples of 1/2 between 1 and 7, which binary floating point
represents and adds exactly, so they are written as rationals.  The animation of
`prePaintScreen` rounds its products and sums and is not embedded. -/

/-- The members of `LookingGlassEffect` that `toggle`, `zoomIn` and `zoomOut`
read or write, next to `m_lastPresentTime` (the count of milliseconds) and
`m_valid`.  The lens radius and the repaints are left out: they are computed
from the zoom and do not feed back into these members. -/
structure LookingGlassEffect where
  zoom : ℚ
  target_zoom : ℚ
  polling : Bool
  m_lastPresentTime : Int
  m_enabled : Bool
  m_valid : Bool
  deriving DecidableEq

/-- The state after the constructor: zoom and target zoom 1, polling off;
`valid` is the result of `loadData()`. -/
def LookingGlassEffect.constructed (valid : Bool) : LookingGlassEffect :=
  ⟨1, 1, false, 0, false, valid⟩

/-- The slot `LookingGlassEffect::toggle`. -/
def LookingGlassEffect.toggle (e : LookingGlassEffect) : LookingGlassEffect :=
  if e.target_zoom = 1 then
    { e with target_zoom := 2, polling := true, m_enabled := true }
  else
    let e1 := { e with target_zoom := 1, polling := false }
    if e1.zoom = e1.target_zoom then { e1 with m_enabled := false } else e1

/-- The slot `LookingGlassEffect::zoomIn`. -/
def LookingGlassEffect.zoomIn (e : LookingGlassEffect) : LookingGlassEffect :=
  { e with target_zoom := min 7 (e.target_zoom + 1 / 2), m_enabled := true, polling := true }

/-- The slot `LookingGlassEffect::zoomOut`. -/
def LookingGlassEffect.zoomOut (e : LookingGlassEffect) : LookingGlassEffect :=
  let e1 := { e with target_zoom := e.target_zoom - 1 / 2 }
  if e1.target_zoom < 1 then
    let e2 := { e1 with target_zoom := 1, polling := false }
    if e2.zoom = e2.target_zoom then { e2 with m_enabled := false } else e2
  else e1

/-! ## The colour manager (`colormanager.cpp`) -/

/-- A `ColorDevice` object: its identity (address) and the output it was
created for (`device->output()`). -/
structure ColorDevice where
  addr : Nat
  output : Nat
  deriving DecidableEq, Repr

/-- Signals and deletions of the colour manager, in program order. -/
inductive ColorEvent where
  | deviceAdded (device : ColorDevice)
  | deviceRemoved (device : ColorDevice)
  | delete (device : ColorDevice)
  deriving DecidableEq, Repr

/-- The colour manager: the vector `d->devices`. -/
structure ColorManager where
  devices : List ColorDevice
  deriving DecidableEq, Repr

/-- The function `ColorManager::findDevice`; `none` is `nullptr`. -/
def ColorManager.findDevice (m : ColorManager) (output : Nat) : Option ColorDevice :=
  m.devices.find? (fun device => device.output == output)

/-- The function `ColorManager::handleOutputEnabled`; `newAddr` is the address
of the device that `new ColorDevice` creates. -/
def ColorManager.handleOutputEnabled (newAddr : Nat) (m : ColorManager) (output : Nat) :
    ColorManager × List ColorEvent :=
  let device : ColorDevice := ⟨newAddr, output⟩
  (⟨m.devices ++ [device]⟩, [ColorEvent.deviceAdded device])

/-- The function `ColorManager::handleOutputDisabled`.  The iterator `it` is the
offset of the first device of the output; the end iterator is the length. -/
def ColorManager.handleOutputDisabled (m : ColorManager) (output : Nat) :
    ColorManager × List ColorEvent :=
  let it := m.devices.findIdx (fun device => device.output == output)
  if it = m.devices.length then (m, [])
  else
    match m.devices.get? it with
    | none => (m, [])
    | some device =>
      (⟨m.devices.eraseIdx it⟩, [ColorEvent.deviceRemoved device, ColorEvent.delete device])

/-! ## The X11 surface item (`surfaceitem_x11.cpp`)

A region is the set of the pixels it covers; window geometries, which Qt keeps
as floating point rectangles, are read as rectangles with rational
coordinates. -/

/-- A `QRegion`: the set of pixels `(x, y)` it covers, as a membership test. -/
structure QRegion where
  contains : Int → Int → Bool

/-- The operator `&` of `QRegion`: the intersection. -/
def QRegion.intersected (a b : QRegion) : QRegion :=
  ⟨fun x y => a.contains x y && b.contains x y⟩

/-- Every pixel of `a` is a pixel of `b`. -/
def QRegion.subset (a b : QRegion) : Prop :=
  ∀ x y, a.contains x y = true → b.contains x y = true

/-- A `QPointF`. -/
structure QPointF where
  x : ℚ
  y : ℚ
  deriving DecidableEq

/-- A `QRect`: top left corner, width and height in pixels. -/
structure QRect where
  x : Int
  y : Int
  width : Int
  height : Int
  deriving DecidableEq, Repr

/-- A `QRectF`: top left corner, width and height. -/
structure QRectF where
  x : ℚ
  y : ℚ
  width : ℚ
  height : ℚ
  deriving DecidableEq

/-- The method `QRectF::topLeft`. -/
def QRectF.topLeft (r : QRectF) : QPointF :=
  ⟨r.x, r.y⟩

/-- The method `QRectF::translated`. -/
def QRectF.translated (r : QRectF) (p : QPointF) : QRectF :=
  ⟨r.x + p.x, r.y + p.y, r.width, r.height⟩

/-- The method `QRectF::toAlignedRect`: the smallest integer rectangle that
contains the rectangle. -/
def QRectF.toAlignedRect (r : QRectF) : QRect :=
  ⟨⌊r.x⌋, ⌊r.y⌋, ⌈r.x + r.width⌉ - ⌊r.x⌋, ⌈r.y + r.height⌉ - ⌊r.y⌋⟩

/-- The region of a rectangle (the conversion of `QRect` to `QRegion`). -/
def QRegion.ofRect (r : QRect) : QRegion :=
  ⟨fun x y => decide (r.x ≤ x ∧ x < r.x + r.width ∧ r.y ≤ y ∧ y < r.y + r.height)⟩

/-- What `SurfaceItemX11` reads from its window. -/
structure Window where
  hasAlpha : Bool
  shapeRegion : QRegion
  opaqueRegion : QRegion
  clientGeometry : QRectF
  bufferGeometry : QRectF

/-- The function `SurfaceItemX11::shape`. -/
def SurfaceItemX11.shape (window : Window) : QRegion :=
  let clipRect : QRectF :=
    window.clientGeometry.translated
      ⟨-(window.bufferGeometry.topLeft).x, -(window.bufferGeometry.topLeft).y⟩
  let shape : QRegion := window.shapeRegion
  shape.intersected (QRegion.ofRect clipRect.toAlignedRect)

/-- The function `SurfaceItemX11::opaque`. -/
def SurfaceItemX11.opaque (window : Window) : QRegion :=
  if !window.hasAlpha then SurfaceItemX11.shape window
  else window.opaqueRegion.intersected (SurfaceItemX11.shape window)

/-- A window for the examples: client area 100 by 50 at (10.5, 20), buffer at
(10, 20); the shape is the half plane `x ≥ 3` and the window's own region of
solid pixels the half plane `y < 30`. -/
def windowWith (alpha : Bool) : Window :=
  ⟨alpha, ⟨fun x _ => decide (3 ≤ x)⟩, ⟨fun _ y => decide (y < 30)⟩,
    ⟨21 / 2, 20, 100, 50⟩, ⟨10, 20, 101, 50⟩⟩

/-! ## Helper lemmas -/

theorem blankSetMode_accept (env : Env) (c : DrmCrtc) (bb : DrmBuffer) (pre : List Effect)
    (h : env.setModeLegacy bb = true) :
    (blankSetMode env c bb pre).ret = true ∧
    (blankSetMode env c bb pre).crtc = { c with m_currentBuffer := none, m_nextBuffer := none } := by
  simp [blankSetMode, h]

theorem blankSetMode_reject (env : Env) (c : DrmCrtc) (bb : DrmBuffer) (pre : List Effect)
    (h : env.setModeLegacy bb = false) :
    blankSetMode env c bb pre = ⟨false, c, pre ++ [Effect.setModeLegacy bb]⟩ := by
  simp [blankSetMode, h]

theorem blankSetMode_modeset_mem (env : Env) (c : DrmCrtc) (bb : DrmBuffer) (pre : List Effect) :
    Effect.setModeLegacy bb ∈ (blankSetMode env c bb pre).effects := by
  unfold blankSetMode
  split <;> simp

theorem blankSetMode_modeset_only (env : Env) (c : DrmCrtc) (bb b : DrmBuffer)
    (pre : List Effect) (h : Effect.setModeLegacy b ∈ (blankSetMode env c bb pre).effects) :
    b = bb ∨ Effect.setModeLegacy b ∈ pre := by
  obtain ⟨id, ri, pn, ps, cur, nxt, blk⟩ := c
  unfold blankSetMode at h
  cases cur <;> cases nxt <;> cases hp : env.deleteBufferAfterPageFlip <;>
    cases hs : env.setModeLegacy bb <;> simp [hp, hs] at h <;> tauto

theorem blankSetMode_effects (env : Env) (c : DrmCrtc) (bb : DrmBuffer) (pre : List Effect) :
    ∃ freed, (blankSetMode env c bb pre).effects = pre ++ Effect.setModeLegacy bb :: freed ∧
      ∀ e ∈ freed, ∃ b, e = Effect.delete b := by
  obtain ⟨id, ri, pn, ps, cur, nxt, blk⟩ := c
  unfold blankSetMode
  cases cur <;> cases nxt <;> cases hp : env.deleteBufferAfterPageFlip <;>
    cases hs : env.setModeLegacy bb <;> simp

theorem blankSetMode_blackBuffer (env : Env) (c : DrmCrtc) (bb : DrmBuffer) (pre : List Effect) :
    (blankSetMode env c bb pre).crtc.m_blackBuffer = c.m_blackBuffer := by
  unfold blankSetMode
  split <;> rfl

theorem foldl_preserves {α β γ : Type} (f : β → α → β) (g : β → γ)
    (h : ∀ b a, g (f b a) = g b) (l : List α) (b : β) : g (l.foldl f b) = g b := by
  induction l generalizing b with
  | nil => rfl
  | cons a t ih => rw [List.foldl_cons, ih, h]

/-- The buffers of a CRTC, as a triple. -/
def buffersOf (c : DrmCrtc) : Option DrmBuffer × Option DrmBuffer × Option DrmBuffer :=
  (c.m_currentBuffer, c.m_nextBuffer, c.m_blackBuffer)

theorem initProp_buffers (env : Env) (n : Nat) (properties : List (Nat × Nat)) (c : DrmCrtc) :
    buffersOf (initProp env n properties c) = buffersOf c := by
  unfold initProp
  apply foldl_preserves
  intro b a
  dsimp only
  split
  · rfl
  · split <;> rfl

theorem initProps_buffers (env : Env) (c : DrmCrtc) :
    buffersOf (initProps env c).crtc = buffersOf c := by
  unfold initProps
  split
  · rfl
  · dsimp only
    rw [foldl_preserves _ buffersOf (fun b a => initProp_buffers env a _ b)]
    rfl

theorem initProps_effects_no_delete (env : Env) (c : DrmCrtc) (b : DrmBuffer) :
    Effect.delete b ∉ (initProps env c).effects := by
  unfold initProps
  split <;> simp

theorem init_eq_initProps (env : Env) (c : DrmCrtc) :
    (init env c).crtc = (initProps env c).crtc ∧ (init env c).effects = (initProps env c).effects ∧
    (init env c).ret = (initProps env c).ret := by
  unfold init
  cases h : (initProps env c).ret <;> simp [h]

theorem blank_ret_false (env : Env) (c : DrmCrtc) (h : (blank env c).ret = false) :
    (blank env c).crtc.m_currentBuffer = c.m_currentBuffer ∧
    ∀ b, Effect.delete b ∈ (blank env c).effects → b = env.createBuffer := by
  obtain ⟨id, ri, pn, ps, cur, nxt, blk⟩ := c
  cases blk with
  | none =>
    cases hm : env.map
    · simp [blank, hm]
    · cases hs : env.setModeLegacy env.createBuffer
      · simp [blank, blankSetMode, hm, hs]
      · simp [blank, blankSetMode, hm, hs] at h
  | some bb =>
    cases hs : env.setModeLegacy bb
    · simp [blank, blankSetMode, hs]
    · simp [blank, blankSetMode, hs] at h

theorem blank_ret_true (env : Env) (c : DrmCrtc) (h : (blank env c).ret = true) :
    (blank env c).crtc.m_currentBuffer = none ∧
    ∀ b, c.m_currentBuffer = some b →
      (Effect.delete b ∈ (blank env c).effects ↔ env.deleteBufferAfterPageFlip = true) := by
  obtain ⟨id, ri, pn, ps, cur, nxt, blk⟩ := c
  cases blk with
  | none =>
    cases hm : env.map
    · simp [blank, hm] at h
    · cases hs : env.setModeLegacy env.createBuffer
      · simp [blank, blankSetMode, hm, hs] at h
      · refine ⟨by simp [blank, blankSetMode, hm, hs], ?_⟩
        intro b hb
        simp only at hb
        subst hb
        cases hpol : env.deleteBufferAfterPageFlip <;> simp [blank, blankSetMode, hm, hs, hpol]
  | some bb =>
    cases hs : env.setModeLegacy bb
    · simp [blank, blankSetMode, hs] at h
    · refine ⟨by simp [blank, blankSetMode, hs], ?_⟩
      intro b hb
      simp only at hb
      subst hb
      cases hpol : env.deleteBufferAfterPageFlip <;> simp [blank, blankSetMode, hs, hpol]

/-! ## The flip-completion handler -/

/-- C1: after `flipBuffer` the current buffer is the buffer that was pending
before the call, and there is neither a pending nor a blanking buffer, whatever
the three buffers were. -/
theorem flipBuffer_promotes_pending (env : Env) (c : DrmCrtc) :
    (flipBuffer env c).crtc.m_currentBuffer = c.m_nextBuffer ∧
    (flipBuffer env c).crtc.m_nextBuffer = none ∧
    (flipBuffer env c).crtc.m_blackBuffer = none := by
  simp [flipBuffer]

/-- On a CRTC whose blanking buffer is neither its current nor its pending
buffer, `flipBuffer` frees the previous current buffer exactly when that buffer
exists, the delete-after-page-flip policy is on and the buffer is not also the
pending one; and the buffer that becomes current is not freed by that flip. -/
theorem flipBuffer_frees_previous_current_iff (env : Env) (c : DrmCrtc)
    (hown : blackBufferOwned c) :
    ((∃ b, c.m_currentBuffer = some b ∧ Effect.delete b ∈ (flipBuffer env c).effects) ↔
      (c.m_currentBuffer ≠ none ∧ env.deleteBufferAfterPageFlip = true ∧
        c.m_currentBuffer ≠ c.m_nextBuffer)) ∧
    (∀ b, (flipBuffer env c).crtc.m_currentBuffer = some b →
      Effect.delete b ∉ (flipBuffer env c).effects) := by
  obtain ⟨id, ri, pn, ps, cur, nxt, blk⟩ := c
  simp only [blackBufferOwned] at hown
  constructor
  · constructor
    · rintro ⟨b, hb, hmem⟩
      simp only at hb
      subst hb
      simp only [flipBuffer, List.mem_append] at hmem
      rcases hmem with hmem | hmem
      · by_cases hp : env.deleteBufferAfterPageFlip = true
        · by_cases hne : some b = nxt
          · simp [hp, hne] at hmem
          · exact ⟨by simp, hp, hne⟩
        · simp [hp] at hmem
      · cases blk with
        | none => simp at hmem
        | some k =>
          simp at hmem
          subst hmem
          exact absurd rfl (hown b rfl).1
    · rintro ⟨h1, h2, h3⟩
      cases cur with
      | none => exact absurd rfl h1
      | some b =>
        refine ⟨b, rfl, ?_⟩
        simp only at h3
        simp [flipBuffer, h2, h3]
  · intro b hb
    simp only [flipBuffer] at hb
    subst hb
    simp only [flipBuffer, List.mem_append, not_or]
    constructor
    · cases cur with
      | none => simp
      | some k =>
        by_cases hp : env.deleteBufferAfterPageFlip = true
        · by_cases hne : k = b
          · subst hne
            simp
          · simp [hp, hne, Ne.symm hne]
        · simp [hp]
    · cases blk with
      | none => simp
      | some k =>
        simp only [List.mem_singleton, Effect.delete.injEq]
        intro hk
        subst hk
        exact absurd rfl (hown b rfl).2

/-- C2 (counterexample): with the deletion policy off, `flipBuffer` frees the
previous current buffer 1 when it is also the blanking buffer; and it frees the
pending buffer 2 that it promotes to current when that is also the blanking
buffer. -/
theorem flipBuffer_frees_aliased_blackBuffer :
    (envWith false 9 true true).deleteBufferAfterPageFlip = false ∧
    (crtcWith (some 1) (some 2) (some 1)).m_currentBuffer = some 1 ∧
    Effect.delete 1 ∈
      (flipBuffer (envWith false 9 true true) (crtcWith (some 1) (some 2) (some 1))).effects ∧
    (flipBuffer (envWith false 9 true true)
      (crtcWith none (some 2) (some 2))).crtc.m_currentBuffer = some 2 ∧
    Effect.delete 2 ∈
      (flipBuffer (envWith false 9 true true) (crtcWith none (some 2) (some 2))).effects := by
  decide

/-- C2 (amended): for every CRTC state, `flipBuffer` frees the previous current
buffer exactly when the delete-after-page-flip policy is on and the buffer is
not also the pending one, or the buffer is also the blanking buffer; the buffer
that becomes current is freed by the flip exactly when it is also the blanking
buffer; and every buffer freed is the previous current buffer or the blanking
buffer.  So in the states whose blanking buffer is neither the current nor the
pending buffer the previous current buffer is freed exactly under the three
conditions of the guard, and the promoted buffer is not freed. -/
theorem flipBuffer_frees_exactly (env : Env) (c : DrmCrtc) :
    (∀ b, c.m_currentBuffer = some b →
      (Effect.delete b ∈ (flipBuffer env c).effects ↔
        ((env.deleteBufferAfterPageFlip = true ∧ c.m_currentBuffer ≠ c.m_nextBuffer) ∨
          c.m_blackBuffer = some b))) ∧
    (∀ b, (flipBuffer env c).crtc.m_currentBuffer = some b →
      (Effect.delete b ∈ (flipBuffer env c).effects ↔ c.m_blackBuffer = some b)) ∧
    (∀ b, Effect.delete b ∈ (flipBuffer env c).effects →
      c.m_currentBuffer = some b ∨ c.m_blackBuffer = some b) ∧
    (blackBufferOwned c →
      ((∃ b, c.m_currentBuffer = some b ∧ Effect.delete b ∈ (flipBuffer env c).effects) ↔
        (c.m_currentBuffer ≠ none ∧ env.deleteBufferAfterPageFlip = true ∧
          c.m_currentBuffer ≠ c.m_nextBuffer)) ∧
      (∀ b, (flipBuffer env c).crtc.m_currentBuffer = some b →
        Effect.delete b ∉ (flipBuffer env c).effects)) := by
  refine ⟨?_, ?_, ?_, flipBuffer_frees_previous_current_iff env c⟩
  · obtain ⟨id, ri, pn, ps, cur, nxt, blk⟩ := c
    intro b hb
    simp only at hb
    subst hb
    cases hp : env.deleteBufferAfterPageFlip <;> cases blk <;> cases nxt <;>
      simp [flipBuffer, hp] <;> aesop
  · obtain ⟨id, ri, pn, ps, cur, nxt, blk⟩ := c
    intro b hb
    simp only [flipBuffer] at hb
    subst hb
    cases hp : env.deleteBufferAfterPageFlip <;> cases blk <;> cases cur <;>
      simp [flipBuffer, hp] <;> aesop
  · obtain ⟨id, ri, pn, ps, cur, nxt, blk⟩ := c
    intro b hb
    cases hp : env.deleteBufferAfterPageFlip <;> cases blk <;> cases cur <;>
      simp [flipBuffer, hp] at hb ⊢ <;> aesop

/-- Witness for C2 (amended): current buffer 1, pending buffer 2 and the
blanking buffer 3, a buffer of its own; the deletion policy is on. -/
theorem flipBuffer_frees_exactly_witness :
    blackBufferOwned (crtcWith (some 1) (some 2) (some 3)) ∧
    (Effect.delete 1 ∈
        (flipBuffer (envWith true 9 true true) (crtcWith (some 1) (some 2) (some 3))).effects ↔
      (((envWith true 9 true true).deleteBufferAfterPageFlip = true ∧
          (crtcWith (some 1) (some 2) (some 3)).m_currentBuffer ≠
            (crtcWith (some 1) (some 2) (some 3)).m_nextBuffer) ∨
        (crtcWith (some 1) (some 2) (some 3)).m_blackBuffer = some 1)) ∧
    (∀ b, (flipBuffer (envWith true 9 true true)
          (crtcWith (some 1) (some 2) (some 3))).crtc.m_currentBuffer = some b →
      Effect.delete b ∉
        (flipBuffer (envWith true 9 true true) (crtcWith (some 1) (some 2) (some 3))).effects) :=
  ⟨by simp [blackBufferOwned, crtcWith],
   (flipBuffer_frees_exactly (envWith true 9 true true)
     (crtcWith (some 1) (some 2) (some 3))).1 1 rfl,
   ((flipBuffer_frees_exactly (envWith true 9 true true)
     (crtcWith (some 1) (some 2) (some 3))).2.2.2 (by simp [blackBufferOwned, crtcWith])).2⟩

/-! ## Blanking -/

/-- C3: when the blanking buffer `bb` is available (already held, or newly
created and mapped) and the mode-set using it is accepted, `blank` returns
true and leaves the CRTC without current and pending buffer, holding `bb` as
blanking buffer, the buffer that was passed to the mode-set. -/
theorem blank_success_state (env : Env) (c : DrmCrtc) (bb : DrmBuffer)
    (havail : c.m_blackBuffer = some bb ∨
      (c.m_blackBuffer = none ∧ env.map = true ∧ env.createBuffer = bb))
    (haccept : env.setModeLegacy bb = true) :
    (blank env c).ret = true ∧
    (blank env c).crtc.m_currentBuffer = none ∧
    (blank env c).crtc.m_nextBuffer = none ∧
    (blank env c).crtc.m_blackBuffer = some bb ∧
    Effect.setModeLegacy bb ∈ (blank env c).effects ∧
    (∀ b, Effect.setModeLegacy b ∈ (blank env c).effects → b = bb) := by
  rcases havail with h | ⟨h, hm, hb⟩
  · have hacc := blankSetMode_accept env c bb [] haccept
    have hmem := blankSetMode_modeset_mem env c bb []
    have honly := fun b => blankSetMode_modeset_only env c bb b []
    simp only [blank, h]
    rw [hacc.2] at *
    refine ⟨hacc.1, rfl, rfl, h, hmem, ?_⟩
    intro b hb
    rcases honly b hb with h1 | h1
    · exact h1
    · simp at h1
  · subst hb
    have hacc := blankSetMode_accept env { c with m_blackBuffer := some env.createBuffer }
      env.createBuffer [Effect.createBuffer env.createBuffer, Effect.map env.createBuffer,
        Effect.fill env.createBuffer] haccept
    have hmem := blankSetMode_modeset_mem env { c with m_blackBuffer := some env.createBuffer }
      env.createBuffer [Effect.createBuffer env.createBuffer, Effect.map env.createBuffer,
        Effect.fill env.createBuffer]
    have honly := fun b => blankSetMode_modeset_only env
      { c with m_blackBuffer := some env.createBuffer }
      env.createBuffer b [Effect.createBuffer env.createBuffer, Effect.map env.createBuffer,
        Effect.fill env.createBuffer]
    simp only [blank, h, hm, Bool.not_true, Bool.false_eq_true, if_false]
    rw [hacc.2] at *
    refine ⟨hacc.1, rfl, rfl, rfl, hmem, ?_⟩
    intro b hb
    rcases honly b hb with h1 | h1
    · exact h1
    · simp at h1

/-- Witness for C3: a CRTC showing buffer 1 with buffer 2 pending and no
blanking buffer; the backend allocates buffer 9. -/
theorem blank_success_state_witness :
    (blank (envWith true 9 true true) (crtcWith (some 1) (some 2) none)).ret = true ∧
    (blank (envWith true 9 true true) (crtcWith (some 1) (some 2) none)).crtc.m_currentBuffer
      = none ∧
    (blank (envWith true 9 true true) (crtcWith (some 1) (some 2) none)).crtc.m_nextBuffer
      = none ∧
    (blank (envWith true 9 true true) (crtcWith (some 1) (some 2) none)).crtc.m_blackBuffer
      = some 9 ∧
    Effect.setModeLegacy 9 ∈
      (blank (envWith true 9 true true) (crtcWith (some 1) (some 2) none)).effects ∧
    (∀ b, Effect.setModeLegacy b ∈
      (blank (envWith true 9 true true) (crtcWith (some 1) (some 2) none)).effects → b = 9) :=
  blank_success_state (envWith true 9 true true) (crtcWith (some 1) (some 2) none) 9
    (Or.inr ⟨rfl, rfl, rfl⟩) rfl

/-- C4: on a CRTC without blanking buffer, when creating or mapping the new
blanking buffer fails, `blank` returns false, the CRTC is exactly what it was,
no mode-set is issued, and no buffer the CRTC held is freed (the backend hands
out an object that is not one of the held buffers). -/
theorem blank_map_failure_unchanged (env : Env) (c : DrmCrtc)
    (hnone : c.m_blackBuffer = none) (hmap : env.map = false)
    (hfresh : c.m_currentBuffer ≠ some env.createBuffer ∧
      c.m_nextBuffer ≠ some env.createBuffer) :
    (blank env c).ret = false ∧
    (blank env c).crtc = c ∧
    (∀ b, Effect.setModeLegacy b ∉ (blank env c).effects) ∧
    (∀ b, (c.m_currentBuffer = some b ∨ c.m_nextBuffer = some b ∨ c.m_blackBuffer = some b) →
      Effect.delete b ∉ (blank env c).effects) := by
  refine ⟨?_, ?_, ?_, ?_⟩
  · simp [blank, hnone, hmap]
  · simp [blank, hnone, hmap]
  · simp [blank, hnone, hmap]
  · intro b hb
    simp only [blank, hnone, hmap]
    simp only [Bool.not_false, if_true, List.mem_cons, List.mem_singleton, Effect.delete.injEq,
      false_or, reduceCtorEq, List.not_mem_nil, or_false]
    intro hbe
    subst hbe
    rcases hb with hb | hb | hb
    · exact hfresh.1 hb
    · exact hfresh.2 hb
    · rw [hnone] at hb
      exact Option.noConfusion hb

/-- Witness for C4: buffers 1 and 2 held, the backend allocates buffer 9 and
mapping it fails. -/
theorem blank_map_failure_unchanged_witness :
    (blank (envWith true 9 false true) (crtcWith (some 1) (some 2) none)).ret = false ∧
    (blank (envWith true 9 false true) (crtcWith (some 1) (some 2) none)).crtc
      = crtcWith (some 1) (some 2) none ∧
    (∀ b, Effect.setModeLegacy b ∉
      (blank (envWith true 9 false true) (crtcWith (some 1) (some 2) none)).effects) ∧
    (∀ b, ((crtcWith (some 1) (some 2) none).m_currentBuffer = some b ∨
        (crtcWith (some 1) (some 2) none).m_nextBuffer = some b ∨
        (crtcWith (some 1) (some 2) none).m_blackBuffer = some b) →
      Effect.delete b ∉
        (blank (envWith true 9 false true) (crtcWith (some 1) (some 2) none)).effects) :=
  blank_map_failure_unchanged (envWith true 9 false true) (crtcWith (some 1) (some 2) none)
    rfl rfl ⟨by decide, by decide⟩

/-- C5 (the code at the failing input): with the delete-after-page-flip policy
on and only a pending buffer (buffer 7) held, a successful `blank` drops the
pending buffer without freeing it: the only actions are the creation, mapping
and filling of the blanking buffer 9 and the mode-set. -/
theorem blank_pending_only_not_freed :
    (blank (envWith true 9 true true) (crtcWith none (some 7) none)).ret = true ∧
    (blank (envWith true 9 true true) (crtcWith none (some 7) none)).crtc.m_nextBuffer = none ∧
    (blank (envWith true 9 true true) (crtcWith none (some 7) none)).effects =
      [Effect.createBuffer 9, Effect.map 9, Effect.fill 9, Effect.setModeLegacy 9] ∧
    Effect.delete 7 ∉ (blank (envWith true 9 true true) (crtcWith none (some 7) none)).effects := by
  decide

/-- C6: when the mode-set that `blank` issues with the blanking buffer `bb` is
rejected, `blank` returns false, the current and the pending buffer are those of
before the call, and no buffer at all is freed. -/
theorem blank_modeset_rejected (env : Env) (c : DrmCrtc) (bb : DrmBuffer)
    (havail : c.m_blackBuffer = some bb ∨
      (c.m_blackBuffer = none ∧ env.map = true ∧ env.createBuffer = bb))
    (hreject : env.setModeLegacy bb = false) :
    (blank env c).ret = false ∧
    (blank env c).crtc.m_currentBuffer = c.m_currentBuffer ∧
    (blank env c).crtc.m_nextBuffer = c.m_nextBuffer ∧
    Effect.setModeLegacy bb ∈ (blank env c).effects ∧
    (∀ b, Effect.delete b ∉ (blank env c).effects) := by
  rcases havail with h | ⟨h, hm, hb⟩
  · simp [blank, h, blankSetMode, hreject]
  · subst hb
    simp [blank, h, hm, blankSetMode, hreject]

/-- Witness for C6: buffers 1 and 2 held, blanking buffer 3 held, the mode-set
is rejected. -/
theorem blank_modeset_rejected_witness :
    (blank (envWith true 9 true false) (crtcWith (some 1) (some 2) (some 3))).ret = false ∧
    (blank (envWith true 9 true false) (crtcWith (some 1) (some 2) (some 3))).crtc.m_currentBuffer
      = (crtcWith (some 1) (some 2) (some 3)).m_currentBuffer ∧
    (blank (envWith true 9 true false) (crtcWith (some 1) (some 2) (some 3))).crtc.m_nextBuffer
      = (crtcWith (some 1) (some 2) (some 3)).m_nextBuffer ∧
    Effect.setModeLegacy 3 ∈
      (blank (envWith true 9 true false) (crtcWith (some 1) (some 2) (some 3))).effects ∧
    (∀ b, Effect.delete b ∉
      (blank (envWith true 9 true false) (crtcWith (some 1) (some 2) (some 3))).effects) :=
  blank_modeset_rejected (envWith true 9 true false) (crtcWith (some 1) (some 2) (some 3)) 3
    (Or.inl rfl) rfl

theorem blank_effects_held (env : Env) (c : DrmCrtc) (bb : DrmBuffer)
    (h : c.m_blackBuffer = some bb) :
    ∃ freed, (blank env c).effects = Effect.setModeLegacy bb :: freed ∧
      ∀ e ∈ freed, ∃ b, e = Effect.delete b := by
  obtain ⟨freed, h1, h2⟩ := blankSetMode_effects env c bb []
  exact ⟨freed, by simp [blank, h, h1], h2⟩

theorem blank_effects_absent (env : Env) (c : DrmCrtc) (h : c.m_blackBuffer = none) :
    ∃ rest, (blank env c).effects =
        Effect.createBuffer env.createBuffer :: Effect.map env.createBuffer :: rest ∧
      (Effect.fill env.createBuffer ∈ rest ↔ env.map = true) ∧
      ∀ e ∈ rest, e = Effect.fill env.createBuffer ∨
        e = Effect.setModeLegacy env.createBuffer ∨ ∃ b, e = Effect.delete b := by
  cases hm : env.map
  · refine ⟨[Effect.delete env.createBuffer], by simp [blank, h, hm], by simp, ?_⟩
    intro e he
    simp at he
    exact Or.inr (Or.inr ⟨_, he⟩)
  · obtain ⟨freed, h1, h2⟩ := blankSetMode_effects env
      { c with m_blackBuffer := some env.createBuffer } env.createBuffer
      [Effect.createBuffer env.createBuffer, Effect.map env.createBuffer,
        Effect.fill env.createBuffer]
    refine ⟨Effect.fill env.createBuffer :: Effect.setModeLegacy env.createBuffer :: freed,
      by simp [blank, h, hm, h1], by simp, ?_⟩
    intro e he
    simp only [List.mem_cons] at he
    rcases he with he | he | he
    · exact Or.inl he
    · exact Or.inr (Or.inl he)
    · exact Or.inr (Or.inr (h2 e he))

theorem countP_isCreate_deletes (freed : List Effect) (h : ∀ e ∈ freed, ∃ b, e = Effect.delete b) :
    freed.countP Effect.isCreate = 0 := by
  rw [List.countP_eq_zero]
  intro e he
  obtain ⟨b, hb⟩ := h e he
  subst hb
  simp [Effect.isCreate]

theorem blank_countP_isCreate (env : Env) (c : DrmCrtc) :
    (blank env c).effects.countP Effect.isCreate = if c.m_blackBuffer = none then 1 else 0 := by
  cases hb : c.m_blackBuffer with
  | none =>
    obtain ⟨rest, h1, _, h3⟩ := blank_effects_absent env c hb
    have hz : rest.countP Effect.isCreate = 0 := by
      rw [List.countP_eq_zero]
      intro e he
      rcases h3 e he with h | h | ⟨b, h⟩ <;> subst h <;> simp [Effect.isCreate]
    simp [h1, List.countP_cons, hz, Effect.isCreate]
  | some bb =>
    obtain ⟨freed, h1, h2⟩ := blank_effects_held env c bb hb
    simp [h1, List.countP_cons, countP_isCreate_deletes freed h2, Effect.isCreate]

/-- C7 (counterexample): the CRTC holds no blanking buffer and mapping the new
buffer 9 fails: `blank` creates the buffer, tries to map it and deletes it, and
fills no buffer. -/
theorem blank_map_failure_fills_nothing :
    (crtcWith (some 1) none none).m_blackBuffer = none ∧
    (blank (envWith true 9 false true) (crtcWith (some 1) none none)).effects =
      [Effect.createBuffer 9, Effect.map 9, Effect.delete 9] ∧
    (∀ b, Effect.fill b ∉
      (blank (envWith true 9 false true) (crtcWith (some 1) none none)).effects) := by
  refine ⟨rfl, by decide, ?_⟩
  intro b
  have h : (blank (envWith true 9 false true) (crtcWith (some 1) none none)).effects =
      [Effect.createBuffer 9, Effect.map 9, Effect.delete 9] := by decide
  rw [h]
  simp

/-- C7 (amended): `blank` allocates the blanking buffer lazily.  It creates a
new buffer and calls `map()` on it exactly when the CRTC holds no blanking
buffer at the call, and it fills the new buffer exactly when, in addition, the
mapping succeeded; when one is held it creates, maps and fills nothing and the
only mode-set is the one with the held buffer; and when the first of two
`blank` calls left a blanking buffer in place, the second call (on any CRTC state
with that blanking buffer) allocates nothing, so both together allocate exactly
as often as the first: once when the CRTC started without blanking buffer. -/
theorem blank_allocates_lazily (env env2 : Env) (c c2 : DrmCrtc) :
    ((blank env c).effects.countP Effect.isCreate = if c.m_blackBuffer = none then 1 else 0) ∧
    ((∃ b, Effect.createBuffer b ∈ (blank env c).effects) ↔ c.m_blackBuffer = none) ∧
    ((∃ b, Effect.map b ∈ (blank env c).effects) ↔ c.m_blackBuffer = none) ∧
    ((∃ b, Effect.fill b ∈ (blank env c).effects) ↔ (c.m_blackBuffer = none ∧ env.map = true)) ∧
    (∀ bb, c.m_blackBuffer = some bb →
      Effect.setModeLegacy bb ∈ (blank env c).effects ∧
      ∀ b, Effect.setModeLegacy b ∈ (blank env c).effects → b = bb) ∧
    ((blank env c).crtc.m_blackBuffer ≠ none →
      c2.m_blackBuffer = (blank env c).crtc.m_blackBuffer →
      (blank env2 c2).effects.countP Effect.isCreate = 0 ∧
      ((blank env c).effects ++ (blank env2 c2).effects).countP Effect.isCreate
        = if c.m_blackBuffer = none then 1 else 0) := by
  refine ⟨blank_countP_isCreate env c, ?_, ?_, ?_, ?_, ?_⟩
  · cases hb : c.m_blackBuffer with
    | none =>
      obtain ⟨rest, h1, _, _⟩ := blank_effects_absent env c hb
      simp [h1]
    | some bb =>
      obtain ⟨freed, h1, h2⟩ := blank_effects_held env c bb hb
      simp only [h1, List.mem_cons, reduceCtorEq, false_or, iff_false, not_exists]
      intro b hmem
      obtain ⟨k, hk⟩ := h2 _ hmem
      exact Effect.noConfusion hk
  · cases hb : c.m_blackBuffer with
    | none =>
      obtain ⟨rest, h1, _, _⟩ := blank_effects_absent env c hb
      simp [h1]
    | some bb =>
      obtain ⟨freed, h1, h2⟩ := blank_effects_held env c bb hb
      simp only [h1, List.mem_cons, reduceCtorEq, false_or, iff_false, not_exists]
      intro b hmem
      obtain ⟨k, hk⟩ := h2 _ hmem
      exact Effect.noConfusion hk
  · cases hb : c.m_blackBuffer with
    | none =>
      obtain ⟨rest, h1, h2, h3⟩ := blank_effects_absent env c hb
      simp only [h1, List.mem_cons, reduceCtorEq, false_or, true_and]
      constructor
      · rintro ⟨b, hmem⟩
        rcases h3 _ hmem with h | h | ⟨k, h⟩
        · rw [← h2, ← h]
          exact hmem
        · exact Effect.noConfusion h
        · exact Effect.noConfusion h
      · intro hm
        exact ⟨_, h2.2 hm⟩
    | some bb =>
      obtain ⟨freed, h1, h2⟩ := blank_effects_held env c bb hb
      simp only [h1, List.mem_cons, reduceCtorEq, false_or, false_and, iff_false, not_exists]
      intro b hmem
      obtain ⟨k, hk⟩ := h2 _ hmem
      exact Effect.noConfusion hk
  · intro bb hb
    obtain ⟨freed, h1, h2⟩ := blank_effects_held env c bb hb
    rw [h1]
    refine ⟨by simp, ?_⟩
    intro b hmem
    simp only [List.mem_cons, Effect.setModeLegacy.injEq] at hmem
    rcases hmem with h | h
    · exact h
    · obtain ⟨k, hk⟩ := h2 _ h
      exact Effect.noConfusion hk
  · intro hkept hc2
    have h2 : (blank env2 c2).effects.countP Effect.isCreate = 0 := by
      rw [blank_countP_isCreate, if_neg]
      rw [hc2]
      exact hkept
    refine ⟨h2, ?_⟩
    rw [List.countP_append, h2, blank_countP_isCreate, Nat.add_zero]

/-- C8: starting from a CRTC without any buffer, a successful `blank` followed
by making `buf` the pending buffer and by flip completion yields the same CRTC
state as making `buf` pending and completing the flip without the `blank`:
current buffer `buf`, no pending buffer, no blanking buffer. -/
theorem blank_has_no_lingering_effect (envB envF envG : Env) (c : DrmCrtc) (buf : DrmBuffer)
    (hfresh : c.m_currentBuffer = none ∧ c.m_nextBuffer = none ∧ c.m_blackBuffer = none)
    (hok : (blank envB c).ret = true) :
    (flipBuffer envF (setNext buf (blank envB c).crtc)).crtc
      = (flipBuffer envG (setNext buf c)).crtc ∧
    (flipBuffer envG (setNext buf c)).crtc.m_currentBuffer = some buf ∧
    (flipBuffer envG (setNext buf c)).crtc.m_nextBuffer = none ∧
    (flipBuffer envG (setNext buf c)).crtc.m_blackBuffer = none := by
  obtain ⟨id, ri, pn, ps, cur, nxt, blk⟩ := c
  obtain ⟨h1, h2, h3⟩ := hfresh
  simp only at h1 h2 h3
  subst h1 h2 h3
  cases hm : envB.map <;> cases hs : envB.setModeLegacy envB.createBuffer <;>
    simp [blank, blankSetMode, hm, hs, flipBuffer, setNext] at hok ⊢

/-- Witness for C8: a CRTC without buffers, blanked with the new buffer 9, then
showing buffer 5. -/
theorem blank_has_no_lingering_effect_witness :
    (flipBuffer (envWith true 8 true true)
        (setNext 5 (blank (envWith true 9 true true) (crtcWith none none none)).crtc)).crtc
      = (flipBuffer (envWith false 7 true true) (setNext 5 (crtcWith none none none))).crtc ∧
    (flipBuffer (envWith false 7 true true)
        (setNext 5 (crtcWith none none none))).crtc.m_currentBuffer = some 5 ∧
    (flipBuffer (envWith false 7 true true)
        (setNext 5 (crtcWith none none none))).crtc.m_nextBuffer = none ∧
    (flipBuffer (envWith false 7 true true)
        (setNext 5 (crtcWith none none none))).crtc.m_blackBuffer = none :=
  blank_has_no_lingering_effect (envWith true 9 true true) (envWith true 8 true true)
    (envWith false 7 true true) (crtcWith none none none) 5 ⟨rfl, rfl, rfl⟩ rfl

/-! ## Who changes the current buffer -/

/-- C9 (counterexample): a successful `blank` on a CRTC showing buffer 1
clears the current buffer and, the deletion policy being on, frees it. -/
theorem blank_changes_current_buffer :
    (blank (envWith true 9 true true) (crtcWith (some 1) none none)).ret = true ∧
    (blank (envWith true 9 true true) (crtcWith (some 1) none none)).crtc.m_currentBuffer
      ≠ (crtcWith (some 1) none none).m_currentBuffer ∧
    Effect.delete 1 ∈ (blank (envWith true 9 true true) (crtcWith (some 1) none none)).effects := by
  decide

/-- C9 (amended): `init` and `initProps` leave the current buffer unchanged and
free no buffer, for every state and outcome; `blank` leaves the current buffer
unchanged and frees no current buffer whenever it returns false; a successful
`blank` clears the current buffer and frees it exactly when the
delete-after-page-flip policy is on.  (The backend hands out an object that is
not the current buffer.) -/
theorem current_buffer_outside_flip (env : Env) (c : DrmCrtc)
    (hfresh : c.m_currentBuffer ≠ some env.createBuffer) :
    ((init env c).crtc.m_currentBuffer = c.m_currentBuffer ∧
      ∀ b, Effect.delete b ∉ (init env c).effects) ∧
    ((initProps env c).crtc.m_currentBuffer = c.m_currentBuffer ∧
      ∀ b, Effect.delete b ∉ (initProps env c).effects) ∧
    ((blank env c).ret = false →
      (blank env c).crtc.m_currentBuffer = c.m_currentBuffer ∧
      ∀ b, c.m_currentBuffer = some b → Effect.delete b ∉ (blank env c).effects) ∧
    ((blank env c).ret = true →
      (blank env c).crtc.m_currentBuffer = none ∧
      ∀ b, c.m_currentBuffer = some b →
        (Effect.delete b ∈ (blank env c).effects ↔ env.deleteBufferAfterPageFlip = true)) := by
  have hp : (initProps env c).crtc.m_currentBuffer = c.m_currentBuffer :=
    congrArg Prod.fst (initProps_buffers env c)
  obtain ⟨hi1, hi2, _⟩ := init_eq_initProps env c
  refine ⟨⟨by rw [hi1, hp], fun b => by rw [hi2]; exact initProps_effects_no_delete env c b⟩,
    ⟨hp, initProps_effects_no_delete env c⟩, ?_, ?_⟩
  · intro hret
    obtain ⟨h1, h2⟩ := blank_ret_false env c hret
    refine ⟨h1, ?_⟩
    intro b hb hmem
    rw [h2 b hmem] at hb
    exact hfresh hb
  · exact blank_ret_true env c

/-- Witness for C9 (amended): a CRTC showing buffer 1 with buffer 2 pending;
the backend allocates buffer 9, mapping it fails. -/
theorem current_buffer_outside_flip_witness :
    (crtcWith (some 1) (some 2) none).m_currentBuffer
      ≠ some (envWith true 9 false true).createBuffer ∧
    (blank (envWith true 9 false true) (crtcWith (some 1) (some 2) none)).ret = false ∧
    (blank (envWith true 9 false true) (crtcWith (some 1) (some 2) none)).crtc.m_currentBuffer
      = some 1 ∧
    (∀ b, Effect.delete b ∉
      (init (envWith true 9 false true) (crtcWith (some 1) (some 2) none)).effects) :=
  ⟨by decide, by decide,
   ((current_buffer_outside_flip (envWith true 9 false true) (crtcWith (some 1) (some 2) none)
      (by decide)).2.2.1 (by decide)).1,
   (current_buffer_outside_flip (envWith true 9 false true) (crtcWith (some 1) (some 2) none)
      (by decide)).1.2⟩

/-! ## Double release -/

/-- C10 (the code at the failing input): the current and the pending slot both
refer to buffer 1 and the deletion policy is on.  A successful `blank` runs
`delete` on buffer 1 twice, whereas `flipBuffer` in the same state does not free
it at all. -/
theorem blank_frees_shared_buffer_twice :
    (blank (envWith true 9 true true) (crtcWith (some 1) (some 1) none)).ret = true ∧
    (blank (envWith true 9 true true) (crtcWith (some 1) (some 1) none)).effects =
      [Effect.createBuffer 9, Effect.map 9, Effect.fill 9, Effect.setModeLegacy 9,
        Effect.delete 1, Effect.delete 1] ∧
    (blank (envWith true 9 true true) (crtcWith (some 1) (some 1) none)).effects.count
      (Effect.delete 1) = 2 ∧
    (flipBuffer (envWith true 9 true true) (crtcWith (some 1) (some 1) none)).effects.count
      (Effect.delete 1) = 0 := by
  decide

/-! ## When the blanking buffer stays a buffer of its own

`flipBuffer` always re-establishes the condition, `blank` keeps it when the
backend hands out a buffer that is not held, and a pending-buffer assignment
keeps it when the assigned buffer is not the blanking buffer. -/

theorem blackBufferOwned_flipBuffer (env : Env) (c : DrmCrtc) :
    blackBufferOwned (flipBuffer env c).crtc := by
  intro b hb
  simp [flipBuffer] at hb

theorem blackBufferOwned_blank (env : Env) (c : DrmCrtc) (hown : blackBufferOwned c)
    (hfresh : c.m_currentBuffer ≠ some env.createBuffer ∧
      c.m_nextBuffer ≠ some env.createBuffer) :
    blackBufferOwned (blank env c).crtc := by
  obtain ⟨id, ri, pn, ps, cur, nxt, blk⟩ := c
  simp only [blackBufferOwned] at hown hfresh ⊢
  cases blk <;> cases hm : env.map <;> cases hs : env.setModeLegacy env.createBuffer <;>
    simp [blank, blankSetMode, hm, hs] <;> try (split <;> simp_all)
  all_goals simp_all

theorem blackBufferOwned_setNext (buf : DrmBuffer) (c : DrmCrtc) (hown : blackBufferOwned c)
    (hne : c.m_blackBuffer ≠ some buf) : blackBufferOwned (setNext buf c) := by
  intro b hb
  simp only [setNext] at hb ⊢
  refine ⟨(hown b hb).1, ?_⟩
  intro h
  injection h with h
  subst h
  exact hne hb

/-! ## Property resolution -/

theorem length_setSlot (props : List (Option Property)) (n : Nat) (p : Property) :
    (setSlot props n p).length = max props.length (n + 1) := by
  simp only [setSlot, List.length_set, List.length_append, List.length_replicate]
  omega

theorem getD_setSlot (props : List (Option Property)) (n i : Nat) (p : Property) :
    (setSlot props n p).getD i none = if i = n then some p else props.getD i none := by
  simp only [setSlot, List.getD_eq_getElem?_getD, List.getElem?_set, List.length_append,
    List.length_replicate]
  by_cases hin : i = n
  · subst hin
    have : i < props.length + (i + 1 - props.length) := by omega
    simp [this]
  · have hni : ¬ n = i := fun h => hin h.symm
    simp only [hin, hni, if_false]
    by_cases hlt : i < props.length
    · rw [List.getElem?_append_left hlt]
    · rw [List.getElem?_append_right (by omega)]
      have h2 : props[i]? = none := List.getElem?_eq_none (by omega)
      rw [h2]
      by_cases h3 : i - props.length < n + 1 - props.length
      · simp [List.getElem?_replicate, h3]
      · simp [List.getElem?_replicate, h3]

theorem ext_getD_none (l₁ l₂ : List (Option Property)) (hlen : l₁.length = l₂.length)
    (h : ∀ i, l₁.getD i none = l₂.getD i none) : l₁ = l₂ := by
  apply List.ext_getElem hlen
  intro i h1 h2
  have := h i
  rw [List.getD_eq_getElem _ _ h1, List.getD_eq_getElem _ _ h2] at this
  exact this

theorem setSlot_absorb (props : List (Option Property)) (n m : Nat) (p q : Property) :
    setSlot (setSlot (setSlot props n p) m q) n p = setSlot (setSlot props m q) n p := by
  apply ext_getD_none
  · simp only [length_setSlot]
    omega
  · intro i
    simp only [getD_setSlot]
    by_cases h1 : i = n <;> by_cases h2 : i = m <;> simp [h1, h2]

theorem setSlot_idem (props : List (Option Property)) (n : Nat) (p : Property) :
    setSlot (setSlot props n p) n p = setSlot props n p := by
  apply ext_getD_none
  · simp only [length_setSlot]
    omega
  · intro i
    simp only [getD_setSlot]
    by_cases h1 : i = n <;> simp [h1]

theorem applyWrites_append (ws vs : List (Nat × Property)) (props : List (Option Property)) :
    applyWrites (ws ++ vs) props = applyWrites vs (applyWrites ws props) := by
  simp [applyWrites, List.foldl_append]

theorem applyWrites_absorb (ws : List (Nat × Property)) (props : List (Option Property))
    (n : Nat) (p : Property) :
    setSlot (applyWrites ws (setSlot props n p)) n p = setSlot (applyWrites ws props) n p := by
  induction ws generalizing props with
  | nil => exact setSlot_idem props n p
  | cons u ws ih =>
    have e1 : applyWrites (u :: ws) (setSlot props n p)
        = applyWrites ws (setSlot (setSlot props n p) u.1 u.2) := rfl
    have e2 : applyWrites (u :: ws) props = applyWrites ws (setSlot props u.1 u.2) := rfl
    rw [e1, e2, ← ih (setSlot (setSlot props n p) u.1 u.2), ← ih (setSlot props u.1 u.2),
      setSlot_absorb]

theorem applyWrites_idem (ws : List (Nat × Property)) (props : List (Option Property)) :
    applyWrites ws (applyWrites ws props) = applyWrites ws props := by
  induction ws using List.reverseRecOn generalizing props with
  | nil => rfl
  | append_singleton ws w ih =>
    have e : ∀ l, applyWrites (ws ++ [w]) l = setSlot (applyWrites ws l) w.1 w.2 := by
      intro l
      rw [applyWrites_append]
      rfl
    rw [e, e, applyWrites_absorb, ih]

theorem initProp_eq_applyWrites_aux (env : Env) (n : Nat) (names : List String)
    (properties : List (Nat × Nat)) (c : DrmCrtc) (hc : c.m_propsNames = names) :
    initProp env n properties c =
      { c with m_props := applyWrites (propWrites env names n properties) c.m_props } := by
  induction properties generalizing c with
  | nil => rfl
  | cons pv t ih =>
    cases hname : env.drmModeGetProperty pv.1 with
    | none =>
      have step : initProp env n (pv :: t) c = initProp env n t c := by
        simp only [initProp, List.foldl_cons, hname]
      have hw : propWrites env names n (pv :: t) = propWrites env names n t := by
        simp only [propWrites, List.filterMap_cons, hname]
      rw [step, hw, ih c hc]
    | some nm =>
      by_cases hm : names.get? n = some nm
      · have step : initProp env n (pv :: t) c =
            initProp env n t { c with m_props := setSlot c.m_props n ⟨pv.1, nm, pv.2⟩ } := by
          simp only [initProp, List.foldl_cons, hname, hc, hm, if_true]
        have hw : propWrites env names n (pv :: t) =
            (n, ⟨pv.1, nm, pv.2⟩) :: propWrites env names n t := by
          simp only [propWrites, List.filterMap_cons, hname, hm, if_true]
        rw [step, hw, ih { c with m_props := setSlot c.m_props n ⟨pv.1, nm, pv.2⟩ } hc]
        rfl
      · have step : initProp env n (pv :: t) c = initProp env n t c := by
          simp only [initProp, List.foldl_cons, hname, hc, hm, if_false]
        have hw : propWrites env names n (pv :: t) = propWrites env names n t := by
          simp only [propWrites, List.filterMap_cons, hname, hm, if_false]
        rw [step, hw, ih c hc]

theorem initProp_eq_applyWrites (env : Env) (n : Nat) (properties : List (Nat × Nat))
    (c : DrmCrtc) :
    initProp env n properties c =
      { c with m_props := applyWrites (propWrites env c.m_propsNames n properties) c.m_props } :=
  initProp_eq_applyWrites_aux env n c.m_propsNames properties c rfl

theorem initProps_success (env : Env) (c : DrmCrtc) (properties : List (Nat × Nat))
    (h : env.drmModeObjectGetProperties = some properties) :
    initProps env c = ⟨true,
      { c with m_propsNames := ["MODE_ID", "ACTIVE"],
               m_props := applyWrites (initPropsWrites env properties) c.m_props },
      [Effect.drmModeObjectGetProperties, Effect.drmModeFreeObjectProperties]⟩ := by
  simp only [initProps, h, PropertyIndex.Count, List.range_succ, List.range_zero, List.nil_append,
    List.cons_append, List.foldl_cons, List.foldl_nil, initProp_eq_applyWrites, initPropsWrites,
    applyWrites_append]

theorem initProps_failure (env : Env) (c : DrmCrtc) (h : env.drmModeObjectGetProperties = none) :
    initProps env c = ⟨false, { c with m_propsNames := ["MODE_ID", "ACTIVE"] },
      [Effect.drmModeObjectGetProperties]⟩ := by
  simp only [initProps, h]

/-- C12: running `initProps` a second time with the same kernel answers gives
the same CRTC state as the first run: the recognised names are `MODE_ID` and
`ACTIVE`, every cached property is the same, and the three buffers are those
the CRTC had before the first run. -/
theorem initProps_idempotent (env : Env) (c : DrmCrtc) :
    (initProps env (initProps env c).crtc).crtc = (initProps env c).crtc ∧
    (initProps env c).crtc.m_propsNames = ["MODE_ID", "ACTIVE"] ∧
    (initProps env (initProps env c).crtc).crtc.m_currentBuffer = c.m_currentBuffer ∧
    (initProps env (initProps env c).crtc).crtc.m_nextBuffer = c.m_nextBuffer ∧
    (initProps env (initProps env c).crtc).crtc.m_blackBuffer = c.m_blackBuffer := by
  cases hq : env.drmModeObjectGetProperties with
  | none =>
    rw [initProps_failure env c hq, initProps_failure env _ hq]
    simp
  | some properties =>
    rw [initProps_success env c properties hq, initProps_success env _ properties hq]
    simp [applyWrites_idem]

/-- C14 (counterexample): `flipBuffer` on a CRTC showing buffer 1 with nothing
pending drops the current buffer and, the deletion policy being on, frees it;
and after buffer 1 was made pending, two `flipBuffer` calls leave no current
buffer where one call leaves buffer 1. -/
theorem flipBuffer_without_pending_drops_current :
    (flipBuffer (envWith true 9 true true) (crtcWith (some 1) none none)).crtc.m_currentBuffer
      = none ∧
    Effect.delete 1 ∈
      (flipBuffer (envWith true 9 true true) (crtcWith (some 1) none none)).effects ∧
    (flipBuffer (envWith true 9 true true) (crtcWith none (some 1) none)).crtc.m_currentBuffer
      = some 1 ∧
    (flipBuffer (envWith true 9 true true)
      (flipBuffer (envWith true 9 true true)
        (crtcWith none (some 1) none)).crtc).crtc.m_currentBuffer = none := by
  decide

/-- C14 (amended): `flipBuffer` does not check that a flip is pending.  On a
CRTC without pending buffer it leaves no current buffer, and a current buffer
that was held is freed exactly when the delete-after-page-flip policy is on
or it is also the blanking buffer; so a second consecutive `flipBuffer` always
leaves the CRTC without current buffer. -/
theorem flipBuffer_without_pending (env env2 : Env) (c : DrmCrtc)
    (hnone : c.m_nextBuffer = none) :
    (flipBuffer env c).crtc.m_currentBuffer = none ∧
    (∀ b, c.m_currentBuffer = some b →
      (Effect.delete b ∈ (flipBuffer env c).effects ↔
        (env.deleteBufferAfterPageFlip = true ∨ c.m_blackBuffer = some b))) ∧
    (flipBuffer env2 (flipBuffer env c).crtc).crtc.m_currentBuffer = none := by
  obtain ⟨id, ri, pn, ps, cur, nxt, blk⟩ := c
  simp only at hnone
  subst hnone
  refine ⟨rfl, ?_, rfl⟩
  intro b hb
  simp only at hb
  subst hb
  cases hp : env.deleteBufferAfterPageFlip <;> cases blk <;> simp [flipBuffer, hp, eq_comm]

/-- Witness for C14 (amended): a CRTC showing buffer 1 with nothing pending. -/
theorem flipBuffer_without_pending_witness :
    (flipBuffer (envWith false 9 true true) (crtcWith (some 1) none none)).crtc.m_currentBuffer
      = none ∧
    (∀ b, (crtcWith (some 1) none none).m_currentBuffer = some b →
      (Effect.delete b ∈
          (flipBuffer (envWith false 9 true true) (crtcWith (some 1) none none)).effects ↔
        ((envWith false 9 true true).deleteBufferAfterPageFlip = true ∨
          (crtcWith (some 1) none none).m_blackBuffer = some b))) ∧
    (flipBuffer (envWith true 9 true true)
      (flipBuffer (envWith false 9 true true)
        (crtcWith (some 1) none none)).crtc).crtc.m_currentBuffer = none :=
  flipBuffer_without_pending (envWith false 9 true true) (envWith true 9 true true)
    (crtcWith (some 1) none none) rfl

/-! ## Blanking buffer and content buffer -/

/-- C15 (counterexample): buffer 1 is made pending and shown, then a `blank`
creates and maps the blanking buffer 9 but its mode-set is rejected: the CRTC
holds the blanking buffer 9 together with the current buffer 1. -/
theorem blackBuffer_with_current_reachable :
    (runOps [CrtcOp.setNext 1, CrtcOp.flipBuffer (envWith true 9 true true),
        CrtcOp.blank (envWith true 9 true false)] (crtcWith none none none)).m_blackBuffer
      = some 9 ∧
    (runOps [CrtcOp.setNext 1, CrtcOp.flipBuffer (envWith true 9 true true),
        CrtcOp.blank (envWith true 9 true false)] (crtcWith none none none)).m_currentBuffer
      = some 1 := by
  decide

theorem blank_accepting_invariant (env : Env) (c : DrmCrtc)
    (hacc : ∀ b, env.setModeLegacy b = true)
    (hinv : c.m_blackBuffer ≠ none → c.m_currentBuffer = none) :
    (blank env c).crtc.m_blackBuffer ≠ none → (blank env c).crtc.m_currentBuffer = none := by
  cases hr : (blank env c).ret
  · obtain ⟨id, ri, pn, ps, cur, nxt, blk⟩ := c
    cases blk with
    | none =>
      cases hm : env.map
      · simp [blank, hm]
      · simp [blank, blankSetMode, hm, hacc] at hr
    | some bb => simp [blank, blankSetMode, hacc] at hr
  · intro _
    exact (blank_ret_true env c hr).1

/-- C15 (amended): in every state reachable from a CRTC without buffers by
`blank` calls whose mode-set the kernel accepts (calls that fail at mapping the
new buffer included), pending-buffer assignments and `flipBuffer` calls, a CRTC
that holds a blanking buffer holds no current buffer.  A `blank` whose mode-set
is rejected installs the new blanking buffer and keeps the current buffer. -/
theorem blackBuffer_excludes_current (ops : List CrtcOp) (c : DrmCrtc)
    (hstart : c.m_currentBuffer = none ∧ c.m_nextBuffer = none ∧ c.m_blackBuffer = none)
    (haccept : ∀ env, CrtcOp.blank env ∈ ops → ∀ b, env.setModeLegacy b = true) :
    ((runOps ops c).m_blackBuffer ≠ none → (runOps ops c).m_currentBuffer = none) ∧
    (∀ (env : Env) (d : DrmCrtc), d.m_blackBuffer = none → env.map = true →
      env.setModeLegacy env.createBuffer = false →
      (blank env d).crtc.m_blackBuffer = some env.createBuffer ∧
      (blank env d).crtc.m_currentBuffer = d.m_currentBuffer) := by
  constructor
  · have hinv : c.m_blackBuffer ≠ none → c.m_currentBuffer = none := fun _ => hstart.1
    clear hstart
    induction ops generalizing c with
    | nil => exact hinv
    | cons op t ih =>
      have hstep : runOps (op :: t) c = runOps t (stepOp c op) := rfl
      rw [hstep]
      apply ih
      · intro env hmem
        exact haccept env (List.mem_cons_of_mem _ hmem)
      · cases op with
        | blank env =>
          exact blank_accepting_invariant env c (haccept env (List.mem_cons_self _ _)) hinv
        | setNext buffer => exact hinv
        | flipBuffer env =>
          intro h
          exact absurd rfl h
  · intro env d hd hm hs
    obtain ⟨id, ri, pn, ps, cur, nxt, blk⟩ := d
    simp only at hd
    subst hd
    simp [blank, blankSetMode, hm, hs]

/-- Witness for C15 (amended): blank, show buffer 1, blank again, with every
mode-set accepted. -/
theorem blackBuffer_excludes_current_witness :
    (runOps [CrtcOp.blank (envWith true 9 true true), CrtcOp.setNext 1,
        CrtcOp.flipBuffer (envWith true 9 true true), CrtcOp.blank (envWith true 8 true true)]
        (crtcWith none none none)).m_blackBuffer = some 8 ∧
    (runOps [CrtcOp.blank (envWith true 9 true true), CrtcOp.setNext 1,
        CrtcOp.flipBuffer (envWith true 9 true true), CrtcOp.blank (envWith true 8 true true)]
        (crtcWith none none none)).m_currentBuffer = none :=
  ⟨by decide,
   (blackBuffer_excludes_current
    [CrtcOp.blank (envWith true 9 true true), CrtcOp.setNext 1,
      CrtcOp.flipBuffer (envWith true 9 true true), CrtcOp.blank (envWith true 8 true true)]
    (crtcWith none none none) ⟨rfl, rfl, rfl⟩
    (by
      intro env hmem b
      simp only [List.mem_cons, CrtcOp.blank.injEq, reduceCtorEq, List.mem_singleton,
        false_or, List.not_mem_nil, or_false] at hmem
      rcases hmem with h | h <;> subst h <;> rfl)).1 (by decide)⟩

/-! ## Filtering multi-plane formats -/

theorem filterFormatsLoop_spec (rest done : List Nat) (fuel : Nat)
    (hfuel : rest.length + 1 ≤ fuel) :
    filterFormatsLoop fuel (done ++ rest) (done.length : Int) =
      some (done ++ rest.filter (fun x => !s_multiPlaneFormats.contains x)) := by
  induction rest generalizing done fuel with
  | nil =>
    obtain ⟨f, rfl⟩ : ∃ f, fuel = f + 1 := ⟨fuel - 1, by simp at hfuel; omega⟩
    simp [filterFormatsLoop]
  | cons x r ih =>
    obtain ⟨f, rfl⟩ : ∃ f, fuel = f + 1 := ⟨fuel - 1, by omega⟩
    have hf : r.length + 1 ≤ f := by
      simp only [List.length_cons] at hfuel
      omega
    have hne : ¬ ((done.length : Int) = ((done ++ x :: r).length : Int)) := by
      simp only [List.length_append, List.length_cons]
      omega
    have hnn : ¬ ((done.length : Int) < 0) := by omega
    have hget : (done ++ x :: r).get? (done.length : Int).toNat = some x := by
      simp only [Int.toNat_ofNat, List.get?_eq_getElem?]
      rw [List.getElem?_append_right (le_refl _)]
      simp
    unfold filterFormatsLoop
    simp only [hne, hnn, if_false, hget]
    by_cases hx : s_multiPlaneFormats.contains x = true
    · have herase : (done ++ x :: r).eraseIdx (done.length : Int).toNat = done ++ r := by
        simp [List.eraseIdx_append_of_length_le]
      have hit : (done.length : Int) - 1 + 1 = (done.length : Int) := by omega
      simp only [hx, if_true, herase, hit]
      rw [ih done f hf]
      have hx1 : x ∈ s_multiPlaneFormats := by simpa using hx
      simp [List.filter_cons, hx1]
    · have hx2 : s_multiPlaneFormats.contains x = false := by
        simpa using hx
      have happ : done ++ x :: r = (done ++ [x]) ++ r := by simp
      have hit : (done.length : Int) + 1 = ((done ++ [x]).length : Int) := by simp
      simp only [hx2, Bool.false_eq_true, if_false, hit]
      rw [happ, ih (done ++ [x]) f hf]
      have hx1 : x ∉ s_multiPlaneFormats := by simpa using hx2
      simp [List.filter_cons, hx1]

/-- C16: on every list of formats the loop of `filterFormatsWithMultiplePlanes`
ends after at most one pass per element, and the vector then holds exactly the
elements that are not in `s_multiPlaneFormats`, in their original order and
multiplicity. -/
theorem filterFormatsWithMultiplePlanes_eq_filter (fuel : Nat) (formats : List Nat)
    (hfuel : formats.length + 1 ≤ fuel) :
    filterFormatsWithMultiplePlanes fuel formats =
      some (formats.filter (fun x => !s_multiPlaneFormats.contains x)) := by
  have h := filterFormatsLoop_spec formats [] fuel hfuel
  simpa [filterFormatsWithMultiplePlanes] using h

/-- Witness for C16: multi-plane formats first, last, and twice in a row. -/
theorem filterFormatsWithMultiplePlanes_eq_filter_witness :
    filterFormatsWithMultiplePlanes 8
        [DRM_FORMAT_NV12, DRM_FORMAT_XRGB8888, DRM_FORMAT_NV21, DRM_FORMAT_YUV420,
          DRM_FORMAT_ARGB8888, DRM_FORMAT_XRGB8888, DRM_FORMAT_YVU444] =
      some ([DRM_FORMAT_NV12, DRM_FORMAT_XRGB8888, DRM_FORMAT_NV21, DRM_FORMAT_YUV420,
          DRM_FORMAT_ARGB8888, DRM_FORMAT_XRGB8888, DRM_FORMAT_YVU444].filter
        (fun x => !s_multiPlaneFormats.contains x)) :=
  filterFormatsWithMultiplePlanes_eq_filter 8
    [DRM_FORMAT_NV12, DRM_FORMAT_XRGB8888, DRM_FORMAT_NV21, DRM_FORMAT_YUV420,
      DRM_FORMAT_ARGB8888, DRM_FORMAT_XRGB8888, DRM_FORMAT_YVU444] (by decide)

/-! ## Tranches by bits per channel -/

theorem find_filter_ne (l : List (Nat × List Nat)) (k f : Nat) (hne : f ≠ k) :
    (l.filter (fun e => e.1 != k)).find? (fun e => e.1 == f) = l.find? (fun e => e.1 == f) := by
  induction l with
  | nil => rfl
  | cons e t ih =>
    by_cases hk : e.1 = k
    · have hp : (e.1 != k) = false := by simp [hk]
      have hq : (e.1 == f) = false := by
        simp only [beq_eq_false_iff_ne]
        intro h
        exact hne (h.symm.trans hk)
      simp only [List.filter_cons, List.find?_cons, hp, hq, Bool.false_eq_true, if_false]
      exact ih
    · have hp : (e.1 != k) = true := by simp [hk]
      by_cases hf : e.1 = f
      · have hq : (e.1 == f) = true := by simp [hf]
        simp only [List.filter_cons, List.find?_cons, hp, hq, if_true]
      · have hq : (e.1 == f) = false := by simp [hf]
        simp only [List.filter_cons, List.find?_cons, hp, hq, if_true]
        exact ih

theorem QHash.value_insert (h : QHash) (k f : Nat) (v : List Nat) :
    (h.insert k v).value f = if f = k then some v else h.value f := by
  by_cases hf : f = k
  · subst hf
    simp [QHash.insert, QHash.value, List.find?_cons]
  · have hq : (k == f) = false := by
      simp only [beq_eq_false_iff_ne]
      exact fun e => hf e.symm
    simp only [QHash.insert, QHash.value, hf, if_false, List.find?_cons, hq]
    rw [find_filter_ne h.entries k f hf]

theorem QHash.wf_insert (h : QHash) (k : Nat) (v : List Nat) (hw : h.wf) :
    (h.insert k v).wf := by
  unfold QHash.wf at hw ⊢
  simp only [QHash.insert, List.map_cons, List.nodup_cons]
  constructor
  · simp
  · have : (h.entries.filter (fun e => e.1 != k)).map (fun e => e.1)
        = (h.entries.map (fun e => e.1)).filter (fun x => x != k) := by
      rw [List.filter_map]
      rfl
    rw [this]
    exact hw.filter _

theorem supportedFormatsOf_wf (env : EglEnv) (formats : List Nat) :
    (supportedFormatsOf env formats).wf := by
  unfold supportedFormatsOf
  have hgen : ∀ (acc : QHash), acc.wf →
      (formats.foldl
        (fun supportedFormats format =>
          if env.hasModifiersQuery then
            if (env.modifiersCount format).1 && decide ((env.modifiersCount format).2 > 0) then
              match env.modifiers format with
              | some modifiers => supportedFormats.insert format modifiers
              | none => supportedFormats.insert format [DRM_FORMAT_MOD_INVALID]
            else supportedFormats.insert format [DRM_FORMAT_MOD_INVALID]
          else supportedFormats.insert format [DRM_FORMAT_MOD_INVALID])
        acc).wf := by
    induction formats with
    | nil => intro acc h; exact h
    | cons x t ih =>
      intro acc h
      rw [List.foldl_cons]
      apply ih
      split
      · split
        · split <;> exact QHash.wf_insert _ _ _ h
        · exact QHash.wf_insert _ _ _ h
      · exact QHash.wf_insert _ _ _ h
  exact hgen ⟨[]⟩ (by simp [QHash.wf])

theorem filterFormats_fold_value (bpc : Int) (l : List (Nat × List Nat))
    (hnd : (l.map (fun e => e.1)).Nodup) (acc : QHash) (f : Nat) :
    (l.foldl (fun set e => if bpcForFormat e.1 = bpc then set.insert e.1 e.2 else set) acc).value f
      = if bpcForFormat f = bpc then
          (match (l.find? (fun e => e.1 == f)).map (fun e => e.2) with
           | some v => some v
           | none => acc.value f)
        else acc.value f := by
  induction l generalizing acc with
  | nil => simp
  | cons e t ih =>
    simp only [List.map_cons, List.nodup_cons] at hnd
    rw [List.foldl_cons, ih hnd.2]
    by_cases hef : e.1 = f
    · have hnot : t.find? (fun e => e.1 == f) = none := by
        rw [List.find?_eq_none]
        intro x hx hxf
        apply hnd.1
        rw [hef]
        simp only [beq_iff_eq] at hxf
        rw [← hxf]
        exact List.mem_map_of_mem _ hx
      subst hef
      by_cases hb : bpcForFormat e.1 = bpc
      · simp [hb, hnot, List.find?_cons, QHash.value_insert]
      · simp [hb]
    · have hfe : ¬ f = e.1 := fun h => hef h.symm
      by_cases hb : bpcForFormat e.1 = bpc
      · simp [hb, List.find?_cons, hef, QHash.value_insert, hfe]
      · simp [hb, List.find?_cons, hef]

theorem filterFormats_value (sf : QHash) (hw : sf.wf) (bpc : Int) (f : Nat) :
    (filterFormats sf bpc).value f = if bpcForFormat f = bpc then sf.value f else none := by
  unfold filterFormats
  rw [filterFormats_fold_value bpc sf.entries hw]
  by_cases hb : bpcForFormat f = bpc
  · simp only [hb, if_true]
    unfold QHash.value
    cases (sf.entries.find? (fun e => e.1 == f)) <;> rfl
  · simp only [hb, if_false]
    rfl

theorem bpcForFormat_cases (f : Nat) :
    bpcForFormat f = 8 ∨ bpcForFormat f = 10 ∨ bpcForFormat f = -1 := by
  unfold bpcForFormat
  split
  · exact Or.inl rfl
  · split
    · exact Or.inr (Or.inl rfl)
    · exact Or.inr (Or.inr rfl)

theorem setSupportedFormatsAndModifiers_eq (fuel : Nat) (env : EglEnv) (m_tranches : List Tranche)
    (formats : List Nat)
    (hcount : env.formatsCount.1 = true ∧ env.formatsCount.2 ≠ 0)
    (hformats : env.formats = some formats)
    (hfuel : formats.length + 1 ≤ fuel) :
    setSupportedFormatsAndModifiers fuel env m_tranches =
      some (m_tranches ++ appendedTranches env
        (supportedFormatsOf env (formats.filter (fun x => !s_multiPlaneFormats.contains x)))) := by
  have hloop : filterFormatsWithMultiplePlanes fuel formats =
      some (formats.filter (fun x => !s_multiPlaneFormats.contains x)) := by
    have h := filterFormatsLoop_spec formats [] fuel hfuel
    simpa [filterFormatsWithMultiplePlanes] using h
  unfold setSupportedFormatsAndModifiers appendedTranches
  simp only [hcount.1, Bool.not_true, Bool.false_or, beq_iff_eq, hcount.2, if_false, hformats,
    hloop]
  cases env.prefer10bpc <;> simp

theorem appendedTranches_value (env : EglEnv) (sf : QHash) (hw : sf.wf) (f : Nat)
    (t : Tranche) (ht : t ∈ appendedTranches env sf) :
    t.formatTable.value f = none ∨ t.formatTable.value f = sf.value f := by
  unfold appendedTranches at ht
  have key : ∀ b, (filterFormats sf b).value f = none ∨
      (filterFormats sf b).value f = sf.value f := by
    intro b
    rw [filterFormats_value sf hw]
    by_cases hb : bpcForFormat f = b
    · exact Or.inr (by simp [hb])
    · exact Or.inl (by simp [hb])
  cases hp : env.prefer10bpc <;> simp [hp] at ht
  · rcases ht with h | h <;> subst h <;> exact key _
  · rcases ht with h | h | h <;> subst h <;> exact key _

theorem appendedTranches_count (env : EglEnv) (sf : QHash) (hw : sf.wf) (f : Nat)
    (m : List Nat) (hm : sf.value f = some m) :
    (appendedTranches env sf).countP (fun t => t.has f) =
      if env.prefer10bpc = false ∧ bpcForFormat f = 10 then 0 else 1 := by
  unfold appendedTranches
  rcases bpcForFormat_cases f with hb | hb | hb <;> cases hp : env.prefer10bpc <;>
    simp [List.countP_cons, Tranche.has, filterFormats_value sf hw, hb, hm]

theorem formats8_not_formats10 :
    ∀ f ∈ [DRM_FORMAT_XRGB8888, DRM_FORMAT_XBGR8888, DRM_FORMAT_RGBX8888, DRM_FORMAT_BGRX8888,
        DRM_FORMAT_ARGB8888, DRM_FORMAT_ABGR8888, DRM_FORMAT_RGBA8888, DRM_FORMAT_BGRA8888,
        DRM_FORMAT_RGB888, DRM_FORMAT_BGR888],
      f ∉ [DRM_FORMAT_XRGB2101010, DRM_FORMAT_XBGR2101010, DRM_FORMAT_RGBX1010102,
        DRM_FORMAT_BGRX1010102, DRM_FORMAT_ARGB2101010, DRM_FORMAT_ABGR2101010,
        DRM_FORMAT_RGBA1010102, DRM_FORMAT_BGRA1010102] := by
  decide

theorem bpcForFormat_eq_8 (f : Nat) :
    bpcForFormat f = 8 ↔
      f ∈ [DRM_FORMAT_XRGB8888, DRM_FORMAT_XBGR8888, DRM_FORMAT_RGBX8888, DRM_FORMAT_BGRX8888,
        DRM_FORMAT_ARGB8888, DRM_FORMAT_ABGR8888, DRM_FORMAT_RGBA8888, DRM_FORMAT_BGRA8888,
        DRM_FORMAT_RGB888, DRM_FORMAT_BGR888] := by
  unfold bpcForFormat
  split
  · rename_i h
    exact ⟨fun _ => h, fun _ => rfl⟩
  · rename_i h
    split
    · exact ⟨fun h8 => absurd h8 (by decide), fun h8 => absurd h8 h⟩
    · exact ⟨fun h8 => absurd h8 (by decide), fun h8 => absurd h8 h⟩

theorem bpcForFormat_eq_10 (f : Nat) :
    bpcForFormat f = 10 ↔
      f ∈ [DRM_FORMAT_XRGB2101010, DRM_FORMAT_XBGR2101010, DRM_FORMAT_RGBX1010102,
        DRM_FORMAT_BGRX1010102, DRM_FORMAT_ARGB2101010, DRM_FORMAT_ABGR2101010,
        DRM_FORMAT_RGBA1010102, DRM_FORMAT_BGRA1010102] := by
  unfold bpcForFormat
  split
  · rename_i h
    exact ⟨fun h10 => absurd h10 (by decide), fun h10 => absurd h10 (formats8_not_formats10 f h)⟩
  · split
    · rename_i h
      exact ⟨fun _ => h, fun _ => rfl⟩
    · rename_i h
      exact ⟨fun h10 => absurd h10 (by decide), fun h10 => absurd h10 h⟩

/-- C17: when the EGL format queries succeed, `setSupportedFormatsAndModifiers`
appends to `m_tranches` the 10-bpc tranche (only when the backend prefers
10 bpc), then the 8-bpc tranche, then the tranche of the other formats.
`bpcForFormat` is 10 exactly on the eight formats with 10 bits per channel, 8
exactly on the ten formats with 8 bits per channel and -1 on every other format;
the table of the tranche for `b` holds exactly the supported formats `f` with
`bpcForFormat f = b`, each with the modifiers recorded for it, so the tables are
pairwise disjoint; a supported format appears in exactly one appended tranche,
except that without the 10-bpc preference the eight formats of 10 bits per
channel appear in none. -/
theorem tranches_sorted_by_bpc (fuel : Nat) (env : EglEnv) (m_tranches : List Tranche)
    (formats : List Nat) (sf : QHash)
    (hcount : env.formatsCount.1 = true ∧ env.formatsCount.2 ≠ 0)
    (hformats : env.formats = some formats)
    (hfuel : formats.length + 1 ≤ fuel)
    (hsf : sf = supportedFormatsOf env
      (formats.filter (fun x => !s_multiPlaneFormats.contains x))) :
    setSupportedFormatsAndModifiers fuel env m_tranches
      = some (m_tranches ++ appendedTranches env sf) ∧
    (appendedTranches env sf).map (fun t => t.formatTable) =
      (if env.prefer10bpc then [filterFormats sf 10] else []) ++
        [filterFormats sf 8, filterFormats sf (-1)] ∧
    (∀ f, bpcForFormat f = 10 ∨ bpcForFormat f = 8 ∨ bpcForFormat f = -1) ∧
    (∀ b f, (filterFormats sf b).value f = if bpcForFormat f = b then sf.value f else none) ∧
    (∀ b1 b2 f, b1 ≠ b2 → (filterFormats sf b1).value f ≠ none →
      (filterFormats sf b2).value f = none) ∧
    (∀ f m, sf.value f = some m →
      (∀ t ∈ appendedTranches env sf, t.has f = true → t.formatTable.value f = some m) ∧
      (env.prefer10bpc = true → (appendedTranches env sf).countP (fun t => t.has f) = 1) ∧
      (env.prefer10bpc = false →
        (appendedTranches env sf).countP (fun t => t.has f)
          = if bpcForFormat f = 10 then 0 else 1)) ∧
    (∀ f, bpcForFormat f = 10 ↔
      f ∈ [DRM_FORMAT_XRGB2101010, DRM_FORMAT_XBGR2101010, DRM_FORMAT_RGBX1010102,
        DRM_FORMAT_BGRX1010102, DRM_FORMAT_ARGB2101010, DRM_FORMAT_ABGR2101010,
        DRM_FORMAT_RGBA1010102, DRM_FORMAT_BGRA1010102]) ∧
    (∀ f, bpcForFormat f = 8 ↔
      f ∈ [DRM_FORMAT_XRGB8888, DRM_FORMAT_XBGR8888, DRM_FORMAT_RGBX8888, DRM_FORMAT_BGRX8888,
        DRM_FORMAT_ARGB8888, DRM_FORMAT_ABGR8888, DRM_FORMAT_RGBA8888, DRM_FORMAT_BGRA8888,
        DRM_FORMAT_RGB888, DRM_FORMAT_BGR888]) ∧
    (∀ f m, sf.value f = some m → env.prefer10bpc = false →
      (appendedTranches env sf).countP (fun t => t.has f)
        = if f ∈ [DRM_FORMAT_XRGB2101010, DRM_FORMAT_XBGR2101010, DRM_FORMAT_RGBX1010102,
            DRM_FORMAT_BGRX1010102, DRM_FORMAT_ARGB2101010, DRM_FORMAT_ABGR2101010,
            DRM_FORMAT_RGBA1010102, DRM_FORMAT_BGRA1010102] then 0 else 1) := by
  have hw : sf.wf := by
    rw [hsf]
    exact supportedFormatsOf_wf env _
  refine ⟨?_, ?_, ?_, filterFormats_value sf hw, ?_, ?_, bpcForFormat_eq_10, bpcForFormat_eq_8,
    ?_⟩
  · rw [hsf]
    exact setSupportedFormatsAndModifiers_eq fuel env m_tranches formats hcount hformats hfuel
  · unfold appendedTranches
    cases env.prefer10bpc <;> simp
  · intro f
    rcases bpcForFormat_cases f with h | h | h
    · exact Or.inr (Or.inl h)
    · exact Or.inl h
    · exact Or.inr (Or.inr h)
  · intro b1 b2 f hne h1
    rw [filterFormats_value sf hw] at h1 ⊢
    by_cases hb : bpcForFormat f = b1
    · have : ¬ bpcForFormat f = b2 := fun h => hne (hb.symm.trans h)
      simp [this]
    · simp [hb] at h1
  · intro f m hm
    refine ⟨?_, ?_, ?_⟩
    · intro t ht hhas
      rcases appendedTranches_value env sf hw f t ht with h | h
      · simp [Tranche.has, h] at hhas
      · rw [h, hm]
    · intro hp
      rw [appendedTranches_count env sf hw f m hm]
      simp [hp]
    · intro hp
      rw [appendedTranches_count env sf hw f m hm]
      simp [hp]
  · intro f m hm hp
    rw [appendedTranches_count env sf hw f m hm]
    by_cases h10 : bpcForFormat f = 10
    · rw [if_pos ⟨hp, h10⟩, if_pos ((bpcForFormat_eq_10 f).1 h10)]
    · rw [if_neg (fun h => h10 h.2), if_neg (fun h => h10 ((bpcForFormat_eq_10 f).2 h))]

/-- Witness for C17: the driver reports an 8-bpc format, a multi-plane format,
a 10-bpc format and the format with code 1.  Without the 10-bpc preference the
8-bpc tranche and the tranche of the other formats are appended and the 10-bpc
format is in neither; with the preference the 10-bpc tranche comes first. -/
theorem tranches_sorted_by_bpc_witness :
    setSupportedFormatsAndModifiers 5
        (eglWith [DRM_FORMAT_XRGB8888, DRM_FORMAT_NV12, DRM_FORMAT_ARGB2101010, 1] false) []
      = some
          [⟨3, [], ⟨[(DRM_FORMAT_XRGB8888, [DRM_FORMAT_MOD_INVALID])]⟩⟩,
           ⟨3, [], ⟨[(1, [DRM_FORMAT_MOD_INVALID])]⟩⟩] ∧
    setSupportedFormatsAndModifiers 5
        (eglWith [DRM_FORMAT_XRGB8888, DRM_FORMAT_NV12, DRM_FORMAT_ARGB2101010, 1] true) []
      = some
          [⟨3, [], ⟨[(DRM_FORMAT_ARGB2101010, [DRM_FORMAT_MOD_INVALID])]⟩⟩,
           ⟨3, [], ⟨[(DRM_FORMAT_XRGB8888, [DRM_FORMAT_MOD_INVALID])]⟩⟩,
           ⟨3, [], ⟨[(1, [DRM_FORMAT_MOD_INVALID])]⟩⟩] ∧
    bpcForFormat DRM_FORMAT_ARGB2101010 = 10 ∧
    bpcForFormat DRM_FORMAT_XRGB8888 = 8 ∧
    bpcForFormat 1 = -1 :=
  ⟨(tranches_sorted_by_bpc 5
      (eglWith [DRM_FORMAT_XRGB8888, DRM_FORMAT_NV12, DRM_FORMAT_ARGB2101010, 1] false) []
      [DRM_FORMAT_XRGB8888, DRM_FORMAT_NV12, DRM_FORMAT_ARGB2101010, 1] _
      ⟨rfl, by decide⟩ rfl (by decide) rfl).1.trans (by decide),
   (tranches_sorted_by_bpc 5
      (eglWith [DRM_FORMAT_XRGB8888, DRM_FORMAT_NV12, DRM_FORMAT_ARGB2101010, 1] true) []
      [DRM_FORMAT_XRGB8888, DRM_FORMAT_NV12, DRM_FORMAT_ARGB2101010, 1] _
      ⟨rfl, by decide⟩ rfl (by decide) rfl).1.trans (by decide),
   ((tranches_sorted_by_bpc 5
      (eglWith [DRM_FORMAT_XRGB8888, DRM_FORMAT_NV12, DRM_FORMAT_ARGB2101010, 1] true) []
      [DRM_FORMAT_XRGB8888, DRM_FORMAT_NV12, DRM_FORMAT_ARGB2101010, 1] _
      ⟨rfl, by decide⟩ rfl (by decide) rfl).2.2.2.2.2.2.1 DRM_FORMAT_ARGB2101010).2 (by decide),
   by decide, by decide⟩

/-! ## The looking glass effect -/

/-- C18 (the code at the failing input): from the constructed state, `zoomIn`
followed by `zoomOut` brings the target zoom back to 1 while mouse polling stays
on; `toggle` twice brings the target zoom back to 1 and stops polling. -/
theorem zoomOut_to_one_keeps_polling (valid : Bool) :
    (LookingGlassEffect.zoomOut
      (LookingGlassEffect.zoomIn (LookingGlassEffect.constructed valid))).target_zoom = 1 ∧
    (LookingGlassEffect.zoomOut
      (LookingGlassEffect.zoomIn (LookingGlassEffect.constructed valid))).polling = true ∧
    (LookingGlassEffect.toggle
      (LookingGlassEffect.toggle (LookingGlassEffect.constructed valid))).target_zoom = 1 ∧
    (LookingGlassEffect.toggle
      (LookingGlassEffect.toggle (LookingGlassEffect.constructed valid))).polling = false := by
  refine ⟨?_, ?_, ?_, ?_⟩ <;>
    norm_num [LookingGlassEffect.zoomOut, LookingGlassEffect.zoomIn, LookingGlassEffect.toggle,
      LookingGlassEffect.constructed]

/-! ## The colour manager -/

theorem findIdx_append_singleton (l : List ColorDevice) (d : ColorDevice) (output : Nat)
    (hno : ∀ x ∈ l, x.output ≠ output) (hd : d.output = output) :
    (l ++ [d]).findIdx (fun device => device.output == output) = l.length := by
  induction l with
  | nil => simp [List.findIdx_cons, hd]
  | cons x t ih =>
    have hx : (x.output == output) = false := by
      simp only [beq_eq_false_iff_ne]
      exact hno x (List.mem_cons_self _ _)
    simp only [List.cons_append, List.findIdx_cons, hx, cond_false, List.length_cons]
    rw [ih (fun y hy => hno y (List.mem_cons_of_mem _ hy))]

theorem findIdx_no_device (l : List ColorDevice) (output : Nat)
    (hno : ∀ x ∈ l, x.output ≠ output) :
    l.findIdx (fun device => device.output == output) = l.length := by
  induction l with
  | nil => rfl
  | cons x t ih =>
    have hx : (x.output == output) = false := by
      simp only [beq_eq_false_iff_ne]
      exact hno x (List.mem_cons_self _ _)
    simp only [List.findIdx_cons, hx, cond_false, List.length_cons]
    rw [ih (fun y hy => hno y (List.mem_cons_of_mem _ hy))]

theorem find_no_device (l : List ColorDevice) (output : Nat)
    (hno : ∀ x ∈ l, x.output ≠ output) :
    l.find? (fun device => device.output == output) = none := by
  rw [List.find?_eq_none]
  intro x hx
  simp only [beq_iff_eq]
  exact hno x hx

/-- C20: for every device list and every output without device in it,
`handleOutputEnabled` followed by `handleOutputDisabled` gives back the same
devices in the same order; `findDevice` returns the new device of that output in
between and no device afterwards; and `handleOutputDisabled` for an output
without device leaves the list unchanged. -/
theorem enable_then_disable_restores (newAddr : Nat) (m : ColorManager) (output : Nat)
    (hno : ∀ d ∈ m.devices, d.output ≠ output) :
    ((m.handleOutputEnabled newAddr output).1.handleOutputDisabled output).1 = m ∧
    (m.handleOutputEnabled newAddr output).1.findDevice output = some ⟨newAddr, output⟩ ∧
    ((m.handleOutputEnabled newAddr output).1.handleOutputDisabled output).1.findDevice output
      = none ∧
    (m.handleOutputDisabled output).1 = m ∧
    m.findDevice output = none := by
  obtain ⟨devices⟩ := m
  simp only at hno
  have hidx := findIdx_append_singleton devices ⟨newAddr, output⟩ output hno rfl
  have hrestore :
      ((ColorManager.mk devices).handleOutputEnabled newAddr output).1.handleOutputDisabled
        output = (⟨devices⟩, [ColorEvent.deviceRemoved ⟨newAddr, output⟩,
          ColorEvent.delete ⟨newAddr, output⟩]) := by
    simp only [ColorManager.handleOutputEnabled, ColorManager.handleOutputDisabled, hidx,
      List.length_append, List.length_singleton]
    have hne : ¬ devices.length = devices.length + 1 := by omega
    simp only [hne, if_false]
    have hget : (devices ++ [(⟨newAddr, output⟩ : ColorDevice)]).get? devices.length
        = some ⟨newAddr, output⟩ := by
      simp only [List.get?_eq_getElem?]
      rw [List.getElem?_append_right (le_refl _)]
      simp
    have herase : (devices ++ [(⟨newAddr, output⟩ : ColorDevice)]).eraseIdx devices.length
        = devices := by
      simp [List.eraseIdx_append_of_length_le]
    simp only [hget, herase]
  refine ⟨?_, ?_, ?_, ?_, ?_⟩
  · rw [hrestore]
  · simp only [ColorManager.handleOutputEnabled, ColorManager.findDevice, List.find?_append,
      find_no_device devices output hno]
    simp
  · rw [hrestore]
    exact find_no_device devices output hno
  · simp only [ColorManager.handleOutputDisabled, findIdx_no_device devices output hno, if_true]
  · exact find_no_device devices output hno

/-- Witness for C20: devices for the outputs 1 and 2, then output 3 is enabled
and disabled. -/
theorem enable_then_disable_restores_witness :
    (((⟨[⟨100, 1⟩, ⟨101, 2⟩]⟩ : ColorManager).handleOutputEnabled 102 3).1.handleOutputDisabled
      3).1 = ⟨[⟨100, 1⟩, ⟨101, 2⟩]⟩ ∧
    ((⟨[⟨100, 1⟩, ⟨101, 2⟩]⟩ : ColorManager).handleOutputEnabled 102 3).1.findDevice 3
      = some ⟨102, 3⟩ :=
  ⟨(enable_then_disable_restores 102 ⟨[⟨100, 1⟩, ⟨101, 2⟩]⟩ 3 (by decide)).1,
   (enable_then_disable_restores 102 ⟨[⟨100, 1⟩, ⟨101, 2⟩]⟩ 3 (by decide)).2.1⟩

/-! ## The X11 surface item -/

/-- C21: for every window, whatever its alpha channel, shape region, region of
solid pixels, client geometry and buffer geometry, every pixel of
`SurfaceItemX11::opaque()` is a pixel of `SurfaceItemX11::shape()`; without
alpha channel the two regions are the same, and with alpha channel the first one
consists of the pixels of `shape()` that lie in the window's `opaqueRegion()`. -/
theorem opaque_subset_shape (window : Window) :
    QRegion.subset ( SurfaceItemX11.opaque window) (SurfaceItemX11.shape window) ∧
    (window.hasAlpha = false →
       SurfaceItemX11.opaque window = SurfaceItemX11.shape window) ∧
    (window.hasAlpha = true →
      ∀ x y, ( SurfaceItemX11.opaque window).contains x y =
        (window.opaqueRegion.contains x y && (SurfaceItemX11.shape window).contains x y)) := by
  refine ⟨?_, ?_, ?_⟩
  · intro x y h
    unfold SurfaceItemX11.opaque at h
    cases ha : window.hasAlpha
    · simpa [ha] using h
    · simp only [ha, Bool.not_true, Bool.false_eq_true, if_false, QRegion.intersected,
        Bool.and_eq_true] at h
      exact h.2
  · intro ha
    simp [ SurfaceItemX11.opaque, ha]
  · intro ha x y
    simp [ SurfaceItemX11.opaque, ha, QRegion.intersected]

theorem shape_clip_example :
    (QRectF.translated ⟨21 / 2, 20, 100, 50⟩
      ⟨-(QRectF.topLeft ⟨10, 20, 101, 50⟩).x, -(QRectF.topLeft ⟨10, 20, 101, 50⟩).y⟩).toAlignedRect
      = ⟨0, 0, 101, 50⟩ := by
  have h1 : ⌊(1 / 2 : ℚ)⌋ = 0 := by
    rw [Int.floor_eq_iff]
    norm_num
  have h2 : ⌈(201 / 2 : ℚ)⌉ = 101 := by
    rw [Int.ceil_eq_iff]
    norm_num
  simp only [QRectF.translated, QRectF.topLeft, QRectF.toAlignedRect]
  norm_num [h1, h2]

theorem opaque_example :
    ( SurfaceItemX11.opaque (windowWith true)).contains 5 25 = true ∧
    ( SurfaceItemX11.opaque (windowWith true)).contains 5 40 = false ∧
    (SurfaceItemX11.shape (windowWith true)).contains 5 40 = true ∧
    ( SurfaceItemX11.opaque (windowWith false)).contains 5 40 = true ∧
    (SurfaceItemX11.shape (windowWith true)).contains 2 40 = false := by
  have hclip := shape_clip_example
  simp only [ SurfaceItemX11.opaque, SurfaceItemX11.shape, windowWith, QRegion.intersected,
    QRegion.ofRect, hclip]
  decide

end KWin
